import Mathlib

/-!
Verification development for the quickshell-polkit-agent core.

The definitions below are a shallow embedding of the C++ sources:
  * `JVal` / `Json`        — `QJsonValue` / `QJsonObject` (key-sorted storage,
                             as Qt stores and iterates JSON objects);
  * `MessageValidator.*`   — src/message-validator.cpp;
  * `SecurityManager.*`    — src/security.cpp (HMAC idealised as an injective
                             function over the canonical object serialisation);
  * `IPCServer.*`          — src/ipc-server.cpp (rate limiting, outbound queue,
                             inbound pipeline);
  * `PolkitWrapper.*`      — src/polkit-wrapper.cpp (session state machine).
Qt logging calls are dropped; signal emissions are recorded in an explicit
trace; pointers are modelled as `Option`/`Bool` fields plus explicit ledgers
where object identity outlives the session map entry.
-/

/-- Model of `QJsonValue` restricted to the value shapes this protocol uses:
strings, numbers (the code reads numeric fields as `qint64`), and booleans. -/
inductive JVal : Type where
  | str (s : String)
  | num (n : Int)
  | bool (b : Bool)
deriving DecidableEq

/-- Model of `QJsonObject`: a key-sorted association list, mirroring Qt's
sorted storage and iteration order for JSON objects. -/
abbrev Json : Type := List (String × JVal)

/-- The empty `QJsonObject`. -/
def jempty : Json := []

/-- Lexicographic order on character lists by code point, mirroring the
`QString` comparison Qt uses to keep `QJsonObject` keys sorted. -/
def strLtList : List Char → List Char → Bool
  | [], [] => false
  | [], _ :: _ => true
  | _ :: _, [] => false
  | a :: as, b :: bs =>
    if a.toNat < b.toNat then true
    else if b.toNat < a.toNat then false
    else strLtList as bs

/-- Lexicographic order on strings by code point. -/
def strLt (a b : String) : Bool := strLtList a.data b.data

/-- `obj[key] = value` on a `QJsonObject`: replace the value at `key` if
present, otherwise insert it, keeping the keys sorted. -/
def jinsert : Json → String → JVal → Json
  | [], k, v => [(k, v)]
  | (k', v') :: rest, k, v =>
    if strLt k k' then (k, v) :: (k', v') :: rest
    else if k = k' then (k, v) :: rest
    else (k', v') :: jinsert rest k v

/-- `obj.value(key)` as an `Option`. -/
def jget : Json → String → Option JVal
  | [], _ => none
  | (k', v') :: rest, k => if k = k' then some v' else jget rest k

/-- `obj.contains(key)`. -/
def jcontains (j : Json) (k : String) : Bool :=
  (jget j k).isSome

/-- `obj.remove(key)`. -/
def jremove : Json → String → Json
  | [], _ => []
  | (k', v') :: rest, k => if k = k' then jremove rest k else (k', v') :: jremove rest k

/-- `obj[key].toString()`: Qt returns the empty string for a missing or
non-string value. -/
def jgetStr (j : Json) (k : String) : String :=
  match jget j k with
  | some (JVal.str s) => s
  | _ => ""

/-- `static_cast<qint64>(obj[key].toDouble())`: Qt returns 0 for a missing or
non-numeric value. -/
def jgetNum (j : Json) (k : String) : Int :=
  match jget j k with
  | some (JVal.num n) => n
  | _ => 0

/-- The keys of the object, in iteration (sorted) order. -/
def jkeys (j : Json) : List String := j.map Prod.fst

/-- Well-formedness of the `QJsonObject` model: keys strictly sorted (hence
unique), which is the canonical form Qt maintains. -/
def JsonWF (j : Json) : Prop := List.Pairwise (fun a b => strLt a.1 b.1 = true) j

namespace MessageValidator

/-- `ValidationResult` from src/message-validator.h. -/
structure ValidationResult where
  valid : Bool
  error : String
deriving DecidableEq

/-- `ValidationResult::success()`. -/
def success : ValidationResult := ⟨true, ""⟩

/-- `ValidationResult::failure(error)`. -/
def failure (e : String) : ValidationResult := ⟨false, e⟩

/-- `MessageValidator::VALID_MESSAGE_TYPES` from src/message-validator.cpp —
note: the list in the .cpp has exactly these three entries ("heartbeat" is
absent, although the header declares `validateHeartbeat` and the unit tests
expect heartbeat messages to validate). -/
def VALID_MESSAGE_TYPES : List String :=
  ["check_authorization", "cancel_authorization", "submit_authentication"]

/-- Security limits from src/message-validator.h. -/
def MAX_STRING_LENGTH : Nat := 4096

def MAX_ACTION_ID_LENGTH : Nat := 256

def MAX_COOKIE_LENGTH : Nat := 128

def MAX_RESPONSE_LENGTH : Nat := 8192

/-- `MessageValidator::validateString`. -/
def validateString (obj : Json) (key : String) (required : Bool) (maxLength : Nat) :
    ValidationResult :=
  match jget obj key with
  | none => if required then failure ("Missing required field: " ++ key) else success
  | some v =>
    match v with
    | JVal.str s =>
      if s.length > maxLength then
        failure ("Field " ++ key ++ " exceeds maximum length of " ++ toString maxLength
          ++ " characters")
      else success
    | _ => failure ("Field " ++ key ++ " must be a string")

/-- `MessageValidator::validateMessageType`. -/
def validateMessageType (obj : Json) : ValidationResult :=
  match jget obj "type" with
  | none => failure "Missing required field: type"
  | some v =>
    match v with
    | JVal.str t =>
      if t ∈ VALID_MESSAGE_TYPES then success
      else failure ("Invalid message type: " ++ t)
    | _ => failure "Field 'type' must be a string"

/-- `MessageValidator::validateCheckAuthorization`. -/
def validateCheckAuthorization (message : Json) : ValidationResult :=
  let actionResult := validateString message "action_id" true MAX_ACTION_ID_LENGTH
  if !actionResult.valid then actionResult
  else
    let detailsResult :=
      if jcontains message "details" then
        validateString message "details" false MAX_STRING_LENGTH
      else success
    if !detailsResult.valid then detailsResult
    else
      let actionId := jgetStr message "action_id"
      if actionId.isEmpty then failure "action_id cannot be empty"
      else if !(actionId.data.contains '.') then
        failure "action_id must contain at least one dot (reverse DNS format)"
      else success

/-- `MessageValidator::validateCancelAuthorization`: rejects the first field
(in Qt's sorted iteration order) that is not in the allow-list `{"type"}`. -/
def validateCancelAuthorization (message : Json) : ValidationResult :=
  match message.find? (fun e => !(e.1 = "type")) with
  | some e => failure ("Unexpected field in cancel_authorization: " ++ e.1)
  | none => success

/-- `MessageValidator::validateSubmitAuthentication`. Qt's
`QChar::isLetterOrNumber` is modelled by `Char.isAlphanum`. -/
def validateSubmitAuthentication (message : Json) : ValidationResult :=
  let cookieResult := validateString message "cookie" true MAX_COOKIE_LENGTH
  if !cookieResult.valid then cookieResult
  else
    let responseResult := validateString message "response" true MAX_RESPONSE_LENGTH
    if !responseResult.valid then responseResult
    else
      let cookie := jgetStr message "cookie"
      if cookie.isEmpty then failure "cookie cannot be empty"
      else if cookie.data.any (fun c => !(c.isAlphanum || c = '-' || c = '_')) then
        failure "cookie contains invalid characters"
      else success

/-- `MessageValidator::validateMessage`. -/
def validateMessage (message : Json) : ValidationResult :=
  let typeResult := validateMessageType message
  if !typeResult.valid then typeResult
  else
    let t := jgetStr message "type"
    if t = "check_authorization" then validateCheckAuthorization message
    else if t = "cancel_authorization" then validateCancelAuthorization message
    else if t = "submit_authentication" then validateSubmitAuthentication message
    else failure ("Unknown message type: " ++ t)

end MessageValidator

example :
    MessageValidator.validateMessage
      (jinsert (jinsert jempty "type" (JVal.str "check_authorization"))
        "action_id" (JVal.str "org.example.test")) = MessageValidator.success := by
  decide

example :
    (MessageValidator.validateMessage (jinsert jempty "type" (JVal.str "heartbeat"))).valid
      = false := by
  decide

namespace SecurityManager

/-- `SESSION_TIMEOUT_MS` from src/security.h. -/
def SESSION_TIMEOUT_MS : Int := 300000

/-- `MAX_TIME_SKEW_MS` from `SecurityManager::verifyMessage`. -/
def MAX_TIME_SKEW_MS : Int := 30000

/-- `SecurityManager::signMessage`, with the composition of Qt's canonical
compact JSON serialisation and the keyed SHA-256 HMAC abstracted as a single
function `mac : Json → String`.  The collision resistance of HMAC-SHA256 and
the injectivity of the canonical serialisation are idealised as injectivity
of `mac` in the theorems below. -/
def signMessage (mac : Json → String) (now : Int) (message : Json) : Json :=
  let signedMessage := jinsert message "timestamp" (JVal.num now)
  jinsert signedMessage "hmac" (JVal.str (mac signedMessage))

/-- `SecurityManager::verifyHMAC` inlined into `verifyMessage`: recompute the
digest over the message without its `hmac` field and compare. -/
def verifyMessage (mac : Json → String) (now : Int) (message : Json) : Bool :=
  if !(jcontains message "hmac") || !(jcontains message "timestamp") then false
  else
    let providedHMAC := jgetStr message "hmac"
    let messageForVerification := jremove message "hmac"
    let computedHMAC := mac messageForVerification
    if !(computedHMAC = providedHMAC) then false
    else
      let messageTimestamp := jgetNum message "timestamp"
      let timeDiff := now - messageTimestamp
      if timeDiff > MAX_TIME_SKEW_MS || timeDiff < -MAX_TIME_SKEW_MS then false
      else true

/-- `SecurityManager::isSessionExpired`. -/
def isSessionExpired (now sessionStartTime : Int) : Bool :=
  now - sessionStartTime > SESSION_TIMEOUT_MS

end SecurityManager

/-!
A concrete injective `mac` function, used by the witnesses and the
counterexample for the signing round-trip claim.  It is an executable stand-in
for serialise-then-HMAC: any injective function works for those theorems.
-/

/-- Injective encoding of a list of naturals into one natural. -/
def encListNat : List Nat → Nat
  | [] => 0
  | a :: l => Nat.pair a (encListNat l) + 1

/-- Injective encoding of a string into a natural (code-point list). -/
def encString (s : String) : Nat := encListNat (s.data.map Char.toNat)

/-- Injective encoding of an integer into a natural. -/
def encInt : Int → Nat
  | Int.ofNat n => 2 * n
  | Int.negSucc n => 2 * n + 1

/-- Injective encoding of a JSON value into a natural. -/
def encJVal : JVal → Nat
  | JVal.str s => 3 * encString s
  | JVal.num n => 3 * encInt n + 1
  | JVal.bool true => 5
  | JVal.bool false => 2

/-- Injective encoding of a JSON object into a natural. -/
def encJson (j : Json) : Nat :=
  encListNat (j.map (fun e => Nat.pair (encString e.1) (encJVal e.2)))

/-- Binary digits of a natural, least significant first. -/
def natBits : Nat → List Bool
  | 0 => []
  | n + 1 => ((n + 1) % 2 = 1) :: natBits ((n + 1) / 2)
decreasing_by exact Nat.div_lt_self (Nat.succ_pos n) (by omega)

/-- Value of a little-endian binary digit list. -/
def bitsVal : List Bool → Nat
  | [] => 0
  | b :: l => (if b then 1 else 0) + 2 * bitsVal l

theorem bitsVal_natBits : ∀ n, bitsVal (natBits n) = n := by
  intro n
  induction n using Nat.strong_induction_on with
  | _ n ih =>
    match n with
    | 0 => simp [natBits, bitsVal]
    | m + 1 =>
      rw [natBits, bitsVal, ih ((m + 1) / 2) (Nat.div_lt_self (Nat.succ_pos m) (by omega))]
      rcases Nat.mod_two_eq_zero_or_one (m + 1) with h | h <;>
        simp [h] <;> omega

/-- The concrete injective mac: the binary digits of the object's encoding,
rendered as a non-empty string of `0`/`1` characters. -/
def macModel (j : Json) : String :=
  String.mk ((natBits (encJson j + 1)).map (fun b => if b then '1' else '0'))

theorem encListNat_injective : Function.Injective encListNat := by
  intro l1 l2 h
  induction l1 generalizing l2 with
  | nil =>
    cases l2 with
    | nil => rfl
    | cons b m => simp [encListNat] at h
  | cons a l ih =>
    cases l2 with
    | nil => simp [encListNat] at h
    | cons b m =>
      simp only [encListNat, Nat.add_right_cancel_iff] at h
      obtain ⟨h1, h2⟩ := Nat.pair_eq_pair.mp h
      rw [h1, ih h2]

theorem char_toNat_injective : Function.Injective Char.toNat := by
  intro a b h
  exact Char.eq_of_val_eq (by
    cases a; cases b
    simp only [Char.toNat, UInt32.toNat] at h
    exact UInt32.eq_of_toBitVec_eq (BitVec.toNat_injective h))

theorem encString_injective : Function.Injective encString := by
  intro s1 s2 h
  have hd : s1.data = s2.data :=
    List.map_injective_iff.mpr char_toNat_injective (encListNat_injective h)
  cases s1; cases s2; simp only at hd; rw [hd]

theorem encInt_injective : Function.Injective encInt := by
  intro a b h
  match a, b with
  | Int.ofNat m, Int.ofNat n =>
    simp only [encInt] at h
    exact congrArg Int.ofNat (by omega)
  | Int.ofNat m, Int.negSucc n =>
    simp only [encInt] at h
    exact absurd h (by omega)
  | Int.negSucc m, Int.ofNat n =>
    simp only [encInt] at h
    exact absurd h (by omega)
  | Int.negSucc m, Int.negSucc n =>
    simp only [encInt] at h
    exact congrArg Int.negSucc (by omega)

theorem encJVal_injective : Function.Injective encJVal := by
  intro x y h
  match x, y with
  | JVal.str s, JVal.str t =>
    simp only [encJVal] at h
    exact congrArg JVal.str (encString_injective (by omega))
  | JVal.num m, JVal.num n =>
    simp only [encJVal] at h
    exact congrArg JVal.num (encInt_injective (by omega))
  | JVal.bool s, JVal.bool t =>
    cases s <;> cases t <;> simp_all [encJVal]
  | JVal.str s, JVal.num n =>
    simp only [encJVal] at h
    exact absurd h (by omega)
  | JVal.str s, JVal.bool t =>
    cases t <;> simp only [encJVal] at h <;> exact absurd h (by omega)
  | JVal.num m, JVal.str t =>
    simp only [encJVal] at h
    exact absurd h (by omega)
  | JVal.num m, JVal.bool t =>
    cases t <;> simp only [encJVal] at h <;> exact absurd h (by omega)
  | JVal.bool s, JVal.str t =>
    cases s <;> simp only [encJVal] at h <;> exact absurd h (by omega)
  | JVal.bool s, JVal.num n =>
    cases s <;> simp only [encJVal] at h <;> exact absurd h (by omega)

theorem encJson_injective : Function.Injective encJson := by
  intro j1 j2 h
  have hpair : Function.Injective
      (fun e : String × JVal => Nat.pair (encString e.1) (encJVal e.2)) := by
    intro ⟨a1, a2⟩ ⟨b1, b2⟩ he
    simp only at he
    obtain ⟨h1, h2⟩ := Nat.pair_eq_pair.mp he
    rw [Prod.mk.injEq]
    exact ⟨encString_injective h1, encJVal_injective h2⟩
  exact List.map_injective_iff.mpr hpair (encListNat_injective h)

theorem natBits_injective : Function.Injective natBits := by
  intro a b h
  rw [← bitsVal_natBits a, ← bitsVal_natBits b, h]

theorem macModel_injective : Function.Injective macModel := by
  intro a b h
  have hmap : Function.Injective (fun x : Bool => if x then '1' else '0') := by
    intro x y hxy
    cases x <;> cases y <;> simp_all
  have hlist : (natBits (encJson a + 1)).map (fun b => if b then '1' else '0')
      = (natBits (encJson b + 1)).map (fun b => if b then '1' else '0') := by
    have := congrArg String.data h
    simpa [macModel] using this
  have := natBits_injective (List.map_injective_iff.mpr hmap hlist)
  exact encJson_injective (by omega)

theorem macModel_ne_empty : ∀ j, macModel j ≠ "" := by
  intro j h
  have := congrArg String.data h
  simp only [macModel] at this
  rw [natBits] at this
  simp at this

namespace IPCServer

/-- Calls the IPC server makes into the polkit wrapper when dispatching a
validated inbound message. -/
inductive IPCAction : Type where
  | checkAuthorization (actionId details : String)
  | cancelAuthorization
  | submitAuthentication (cookie response : String)
deriving DecidableEq

/-- `RATE_LIMIT_WINDOW_MS`.  Modelled from the spec: the constant is declared
in the revision of src/ipc-server.h this .cpp compiles against, which is not
in the tree; the spec fixes the sliding window at 1000 ms. -/
def RATE_LIMIT_WINDOW_MS : Int := 1000

/-- Bound of the outbound queue (`MAX_QUEUED_MESSAGES` in
`IPCServer::queueMessage`). -/
def MAX_QUEUED_MESSAGES : Nat := 50

/-- The mutable state of `IPCServer` that the inbound/outbound paths touch.
`sent` records messages written to the connected client (oldest first) and
`actions` records calls into the wrapper; both model observable effects. -/
structure State where
  clientConnected : Bool := false
  messageTimestamps : List Int := []
  lastHeartbeat : Int := 0
  sessionStartTime : Int := 0
  pendingMessages : List Json := []
  sent : List Json := []
  actions : List IPCAction := []
deriving DecidableEq

/-- `IPCServer::queueMessage`. -/
def queueMessage (st : State) (message : Json) : State :=
  let t := jgetStr message "type"
  if t = "heartbeat_ack" || t = "error" || t = "welcome" then st
  else if st.pendingMessages.length ≥ MAX_QUEUED_MESSAGES then
    { st with pendingMessages := st.pendingMessages.tail ++ [message] }
  else
    { st with pendingMessages := st.pendingMessages ++ [message] }

/-- `IPCServer::sendMessageToClient` (the `ConnectedState` check is folded
into `clientConnected`). -/
def sendMessageToClient (st : State) (message : Json) : State :=
  if !st.clientConnected then queueMessage st message
  else { st with sent := st.sent ++ [message] }

/-- `IPCServer::sendErrorToClient`. -/
def sendErrorToClient (st : State) (error : String) : State :=
  sendMessageToClient st (jinsert (jinsert jempty "type" (JVal.str "error"))
    "error" (JVal.str error))

/-- `IPCServer::checkRateLimit`: enqueue the current arrival time, evict
entries older than the window from the front, then test the ceiling.
`maxMessagesPerSecond` stands for the `MAX_MESSAGES_PER_SECOND` constant from
the missing header revision; no claim depends on its value. -/
def checkRateLimit (maxMessagesPerSecond : Nat) (st : State) (now : Int) :
    State × Bool :=
  let q1 := st.messageTimestamps ++ [now]
  let q2 := q1.dropWhile (fun t => now - t > RATE_LIMIT_WINDOW_MS)
  let st' := { st with messageTimestamps := q2 }
  if q2.length > maxMessagesPerSecond then (st', false) else (st', true)

/-- `IPCServer::resetSessionTimeout`. -/
def resetSessionTimeout (st : State) (now : Int) : State :=
  { st with sessionStartTime := now }

/-- `IPCServer::handleClientMessage`: the inbound pipeline — rate limit,
session-timeout check, schema validation, optional HMAC verification, then
dispatch by type.  `mac` is the HMAC model (see `SecurityManager`); `now` is
the current clock reading used by all the timestamp calls in the body. -/
def handleClientMessage (mac : Json → String) (maxMessagesPerSecond : Nat)
    (st : State) (message : Json) (now : Int) : State :=
  let p := checkRateLimit maxMessagesPerSecond st now
  let st1 := p.1
  if !p.2 then
    sendErrorToClient st1 "Rate limit exceeded"
  else if SecurityManager.isSessionExpired now st1.sessionStartTime then
    { st1 with clientConnected := false }
  else
    let validation := MessageValidator.validateMessage message
    if !validation.valid then
      sendErrorToClient st1 ("Invalid message: " ++ validation.error)
    else if jcontains message "hmac"
        && !(SecurityManager.verifyMessage mac now message) then
      sendErrorToClient st1 "Message authentication failed"
    else
      let t := jgetStr message "type"
      if t = "check_authorization" then
        let st2 := resetSessionTimeout st1 now
        { st2 with actions := st2.actions
          ++ [IPCAction.checkAuthorization (jgetStr message "action_id")
                (jgetStr message "details")] }
      else if t = "cancel_authorization" then
        { st1 with actions := st1.actions ++ [IPCAction.cancelAuthorization] }
      else if t = "submit_authentication" then
        let st2 := resetSessionTimeout st1 now
        { st2 with actions := st2.actions
          ++ [IPCAction.submitAuthentication (jgetStr message "cookie")
                (jgetStr message "response")] }
      else if t = "heartbeat" then
        let st2 := resetSessionTimeout { st1 with lastHeartbeat := now } now
        sendMessageToClient st2
          (jinsert (jinsert jempty "type" (JVal.str "heartbeat_ack"))
            "timestamp" (JVal.num now))
      else
        sendErrorToClient st1 ("Unknown message type: " ++ t)

end IPCServer

/-- Generic association-list lookup for the cookie-keyed maps. -/
def alookup {α : Type} : List (String × α) → String → Option α
  | [], _ => none
  | (k, v) :: rest, key => if key = k then some v else alookup rest key

/-- Replace the value at a key, or append the binding if absent (models
`QMap::operator[] =`; claims do not depend on `QMap`'s iteration order). -/
def aset {α : Type} : List (String × α) → String → α → List (String × α)
  | [], key, v => [(key, v)]
  | (k, w) :: rest, key, v =>
    if key = k then (k, v) :: rest else (k, w) :: aset rest key v

/-- Update the value at a key in place, if present. -/
def aupdate {α : Type} (f : α → α) : List (String × α) → String → List (String × α)
  | [], _ => []
  | (k, w) :: rest, key =>
    if key = k then (k, f w) :: rest else (k, w) :: aupdate f rest key

/-- Remove the binding at a key (models `QMap::remove`; `QMap` keys are
unique, so removing every occurrence is the same operation). -/
def aremove {α : Type} : List (String × α) → String → List (String × α)
  | [], _ => []
  | (k, w) :: rest, key =>
    if key = k then aremove rest key else (k, w) :: aremove rest key

/-- `AuthenticationState` from src/polkit-wrapper.h. -/
inductive AuthenticationState : Type where
  | IDLE
  | INITIATED
  | TRYING_FIDO
  | FIDO_FAILED
  | WAITING_FOR_PASSWORD
  | AUTHENTICATING
  | AUTHENTICATION_FAILED
  | MAX_RETRIES_EXCEEDED
  | COMPLETED
  | CANCELLED
  | ERROR
deriving DecidableEq

/-- `AuthenticationMethod` from src/polkit-wrapper.h. -/
inductive AuthenticationMethod : Type where
  | NONE
  | FIDO
  | PASSWORD
deriving DecidableEq

namespace PolkitWrapper

/-- `MAX_AUTH_RETRIES` from src/polkit-wrapper.h. -/
def MAX_AUTH_RETRIES : Nat := 3

/-- `FIDO_TIMEOUT_MS` from src/polkit-wrapper.h. -/
def FIDO_TIMEOUT_MS : Nat := 15000

/-- The daemon-side `PolkitQt1::Agent::AsyncResult` object: it outlives the
session-map entry, so completions against it are tracked in a ledger.
`setError` / `setCompleted` calls are counted. -/
structure AsyncResultState where
  errorCalls : Nat := 0
  completedCalls : Nat := 0
deriving DecidableEq

/-- The `PolkitQt1::Agent::Session` backend-conversation object, reduced to
the calls the wrapper makes on it. -/
structure PamSessionState where
  initiated : Bool := false
  cancelled : Bool := false
  responses : List String := []
deriving DecidableEq

/-- `SessionState` from src/polkit-wrapper.h.  `result` is the non-null flag
of the `AsyncResult*` pointer (the object itself lives in the wrapper's
`asyncResults` ledger); `session` models the owned `Session*`;
`fidoTimeoutTimer` is true while a timer object is armed. -/
structure SessionState where
  state : AuthenticationState := AuthenticationState.IDLE
  method : AuthenticationMethod := AuthenticationMethod.NONE
  cookie : String := ""
  actionId : String := ""
  retryCount : Nat := 0
  nfcAttempted : Bool := false
  result : Bool := false
  session : Option PamSessionState := none
  fidoTimeoutTimer : Bool := false
deriving DecidableEq

/-- The Qt signals `PolkitWrapper` emits, recorded as a trace. -/
inductive Signal : Type where
  | showAuthDialog (actionId message iconName cookie : String)
  | authorizationResult (authorized : Bool) (actionId : String)
  | authorizationError (error : String)
  | showPasswordRequest (actionId request : String) (echo : Bool) (cookie : String)
  | authenticationStateChanged (cookie : String) (state : AuthenticationState)
  | authenticationMethodChanged (cookie : String) (method : AuthenticationMethod)
  | authenticationMethodFailed (cookie : String) (method : AuthenticationMethod)
      (reason : String)
  | authenticationError (cookie : String) (state : AuthenticationState)
      (method : AuthenticationMethod) (defaultMessage technicalDetails : String)
deriving DecidableEq

/-- The wrapper's mutable state.  `asyncResults` is the ledger of daemon-side
result objects keyed by cookie (created at `initiateAuthentication`), kept
even after the session-map entry is erased so that completion counts remain
observable. -/
structure Wrapper where
  sessions : List (String × SessionState) := []
  nfcReaderPresent : Bool := false
  asyncResults : List (String × AsyncResultState) := []
  signals : List Signal := []
deriving DecidableEq

/-- `PolkitWrapper::getSession`. -/
def getSession (w : Wrapper) (cookie : String) : Option SessionState :=
  alookup w.sessions cookie

/-- `PolkitWrapper::getDefaultErrorMessage`. -/
def getDefaultErrorMessage (state : AuthenticationState)
    (method : AuthenticationMethod) : String :=
  match state with
  | AuthenticationState.MAX_RETRIES_EXCEEDED =>
    match method with
    | AuthenticationMethod.PASSWORD =>
      "You reached the maximum password authentication attempts. Please try another method."
    | AuthenticationMethod.FIDO =>
      "You reached the maximum security key attempts. Please try password authentication."
    | AuthenticationMethod.NONE =>
      "You reached the maximum authentication attempts. Please try again later."
  | AuthenticationState.AUTHENTICATION_FAILED =>
    match method with
    | AuthenticationMethod.PASSWORD => "Incorrect password. Please try again."
    | AuthenticationMethod.FIDO => "Security key authentication failed. Please try again."
    | AuthenticationMethod.NONE => "Authentication failed. Please try again."
  | AuthenticationState.FIDO_FAILED =>
    "Security key authentication timed out or failed. Please enter your password."
  | AuthenticationState.ERROR =>
    "An error occurred during authentication. Please try again."
  | AuthenticationState.CANCELLED => "Authentication was cancelled."
  | _ => ""

/-- `PolkitWrapper::setState`. -/
def setState (w : Wrapper) (cookie : String) (newState : AuthenticationState) :
    Wrapper :=
  match getSession w cookie with
  | none => w
  | some session =>
    if session.state = newState then w
    else
      { w with
        sessions := aupdate (fun s => { s with state := newState }) w.sessions cookie
        signals := w.signals ++ [Signal.authenticationStateChanged cookie newState] }

/-- `PolkitWrapper::setMethod`. -/
def setMethod (w : Wrapper) (cookie : String) (method : AuthenticationMethod) :
    Wrapper :=
  match getSession w cookie with
  | none => w
  | some session =>
    if session.method = method then w
    else
      { w with
        sessions := aupdate (fun s => { s with method := method }) w.sessions cookie
        signals := w.signals ++ [Signal.authenticationMethodChanged cookie method] }

/-- Field updates used by the timer and cleanup paths, named so proofs can
refer to them. -/
def armTimer (s : SessionState) : SessionState := { s with fidoTimeoutTimer := true }

def clearTimer (s : SessionState) : SessionState := { s with fidoTimeoutTimer := false }

def clearPam (s : SessionState) : SessionState := { s with session := none }

def clearResult (s : SessionState) : SessionState := { s with result := false }

def setNfcAttempted (s : SessionState) : SessionState := { s with nfcAttempted := true }

def attachPam (s : SessionState) : SessionState := { s with session := some { initiated := true } }

/-- `PolkitWrapper::startFidoTimeout` (stop-and-replace collapses to keeping
one armed timer). -/
def startFidoTimeout (w : Wrapper) (cookie : String) : Wrapper :=
  match getSession w cookie with
  | none => w
  | some _ =>
    { w with
      sessions := aupdate armTimer w.sessions cookie }

/-- `PolkitWrapper::cancelFidoTimeout`. -/
def cancelFidoTimeout (w : Wrapper) (cookie : String) : Wrapper :=
  match getSession w cookie with
  | none => w
  | some session =>
    if !session.fidoTimeoutTimer then w
    else
      { w with
        sessions := aupdate clearTimer w.sessions cookie }

/-- `setError` + `setCompleted` on the ledgered `AsyncResult` object. -/
def completeResultError (w : Wrapper) (cookie : String) : Wrapper :=
  { w with
    asyncResults := aupdate
      (fun r => { r with errorCalls := r.errorCalls + 1,
                         completedCalls := r.completedCalls + 1 })
      w.asyncResults cookie }

/-- Plain `setCompleted` on the ledgered `AsyncResult` object. -/
def completeResultOk (w : Wrapper) (cookie : String) : Wrapper :=
  { w with
    asyncResults := aupdate (fun r => { r with completedCalls := r.completedCalls + 1 })
      w.asyncResults cookie }

/-- `PolkitWrapper::cleanupSession`, first two statements of the some-branch:
cancel the FIDO timer, then cancel and null the owned PAM session. -/
def cleanupClearPam (w : Wrapper) (cookie : String) : Wrapper :=
  let w1 := cancelFidoTimeout w cookie
  { w1 with sessions := aupdate clearPam w1.sessions cookie }

/-- `PolkitWrapper::cleanupSession`, "complete async result if still pending":
errors-and-completes the result unless the session state is `COMPLETED`, then
nulls the pointer. -/
def cleanupFinishResult (w : Wrapper) (cookie : String) : Wrapper :=
  match getSession w cookie with
  | some s =>
    if s.result then
      let wA := if s.state ≠ AuthenticationState.COMPLETED then
          completeResultError w cookie
        else w
      { wA with sessions := aupdate clearResult wA.sessions cookie }
    else w
  | none => w

/-- `PolkitWrapper::cleanupSession`. -/
def cleanupSession (w : Wrapper) (cookie : String) : Wrapper :=
  match getSession w cookie with
  | none => w
  | some _ =>
    let w3 := cleanupFinishResult (cleanupClearPam w cookie) cookie
    { w3 with sessions := aremove w3.sessions cookie }

/-- `session->session->setResponse(text)`: forward a response to the backend
conversation object. -/
def pamAppendResponse (text : String) (s : SessionState) : SessionState :=
  { s with
    session := s.session.map (fun p => { p with responses := p.responses ++ [text] }) }

/-- The "Update state" part of the `Session::completed` lambda
(src/polkit-wrapper.cpp:186-215): on success set `COMPLETED`; on failure
increment the retry counter and either lock out (`MAX_RETRIES_EXCEEDED`) or
mark the recoverable failure (`AUTHENTICATION_FAILED`), emitting the
comprehensive error signal either way. -/
def completedUpdateState (w : Wrapper) (cookie : String)
    (gainedAuthorization : Bool) : Wrapper :=
  if gainedAuthorization then
    setState w cookie AuthenticationState.COMPLETED
  else
    match getSession w cookie with
    | none => w
    | some session =>
      let session' := { session with retryCount := session.retryCount + 1 }
      let wA := { w with sessions := aset w.sessions cookie session' }
      if session'.retryCount ≥ MAX_AUTH_RETRIES then
        let wB := setState wA cookie AuthenticationState.MAX_RETRIES_EXCEEDED
        let defaultMsg := getDefaultErrorMessage
          AuthenticationState.MAX_RETRIES_EXCEEDED session'.method
        { wB with signals := wB.signals
          ++ [Signal.authenticationError cookie
                AuthenticationState.MAX_RETRIES_EXCEEDED session'.method defaultMsg
                ("Retry count: " ++ toString session'.retryCount ++ "/"
                  ++ toString MAX_AUTH_RETRIES)] }
      else
        let wB := setState wA cookie AuthenticationState.AUTHENTICATION_FAILED
        let defaultMsg := getDefaultErrorMessage
          AuthenticationState.AUTHENTICATION_FAILED session'.method
        { wB with signals := wB.signals
          ++ [Signal.authenticationError cookie
                AuthenticationState.AUTHENTICATION_FAILED session'.method defaultMsg
                ("Retry count: " ++ toString session'.retryCount ++ "/"
                  ++ toString MAX_AUTH_RETRIES)] }

/-- The "Complete the AsyncResult" part of the `Session::completed` lambda
(src/polkit-wrapper.cpp:217-226). -/
def completedFinishResult (w : Wrapper) (cookie : String)
    (gainedAuthorization : Bool) : Wrapper :=
  match getSession w cookie with
  | some session =>
    if session.result then
      if gainedAuthorization then completeResultOk w cookie
      else completeResultError w cookie
    else w
  | none => w

/-- The `Session::completed` lambda connected in
`PolkitWrapper::initiateAuthentication` (src/polkit-wrapper.cpp:178-232). -/
def onSessionCompleted (w : Wrapper) (cookie actionId : String)
    (gainedAuthorization : Bool) : Wrapper :=
  let w1 := cancelFidoTimeout w cookie
  let w2 := completedUpdateState w1 cookie gainedAuthorization
  let w3 := completedFinishResult w2 cookie gainedAuthorization
  let w4 := { w3 with signals := w3.signals
    ++ [Signal.authorizationResult gainedAuthorization actionId] }
  cleanupSession w4 cookie

/-- The `Session::request` lambda connected in
`PolkitWrapper::initiateAuthentication` (src/polkit-wrapper.cpp:234-284). -/
def onSessionRequest (w : Wrapper) (cookie actionId requestText : String)
    (echo : Bool) : Wrapper :=
  match getSession w cookie with
  | none => w
  | some session =>
    if session.session.isNone then w
    else if session.state = AuthenticationState.MAX_RETRIES_EXCEEDED then w
    else if w.nfcReaderPresent && !session.nfcAttempted then
      let w1 := setState w cookie AuthenticationState.TRYING_FIDO
      let w2 := setMethod w1 cookie AuthenticationMethod.FIDO
      let w3 := { w2 with
        sessions := aupdate setNfcAttempted w2.sessions cookie }
      let w4 := startFidoTimeout w3 cookie
      { w4 with sessions := aupdate (pamAppendResponse "") w4.sessions cookie }
    else
      let w1 :=
        if session.nfcAttempted then
          let wA := cancelFidoTimeout w cookie
          let wB := setState wA cookie AuthenticationState.FIDO_FAILED
          { wB with signals := wB.signals
            ++ [Signal.authenticationMethodFailed cookie AuthenticationMethod.FIDO
                  "FIDO authentication failed"] }
        else w
      let w2 := setState w1 cookie AuthenticationState.WAITING_FOR_PASSWORD
      let w3 := setMethod w2 cookie AuthenticationMethod.PASSWORD
      { w3 with signals := w3.signals
        ++ [Signal.showPasswordRequest actionId requestText echo cookie] }

/-- The `Session::showError` lambda connected in
`PolkitWrapper::initiateAuthentication` (src/polkit-wrapper.cpp:286-309). -/
def onSessionShowError (w : Wrapper) (cookie actionId text : String) : Wrapper :=
  let w1 := setState w cookie AuthenticationState.ERROR
  let w2 :=
    match getSession w1 cookie with
    | none => w1
    | some session =>
      let defaultMsg := getDefaultErrorMessage AuthenticationState.ERROR session.method
      let wA := { w1 with signals := w1.signals
        ++ [Signal.authenticationError cookie AuthenticationState.ERROR
              session.method defaultMsg text] }
      if session.result then completeResultError wA cookie else wA
  let w3 := { w2 with signals := w2.signals
    ++ [Signal.authorizationResult false actionId] }
  cleanupSession w3 cookie

/-- `PolkitWrapper::submitAuthenticationResponse` (src/polkit-wrapper.cpp:357-400). -/
def submitAuthenticationResponse (w : Wrapper) (cookie response : String) : Wrapper :=
  match getSession w cookie with
  | none => w
  | some session =>
    if session.session.isNone then w
    else if session.state = AuthenticationState.MAX_RETRIES_EXCEEDED then
      let defaultMsg := getDefaultErrorMessage
        AuthenticationState.MAX_RETRIES_EXCEEDED session.method
      { w with signals := w.signals
        ++ [Signal.authenticationError cookie AuthenticationState.MAX_RETRIES_EXCEEDED
              session.method defaultMsg
              "User attempted to submit response after max retries",
            Signal.authorizationError defaultMsg] }
    else
      let w1 := setState w cookie AuthenticationState.AUTHENTICATING
      let w2 := setMethod w1 cookie AuthenticationMethod.PASSWORD
      { w2 with sessions := aupdate (pamAppendResponse response) w2.sessions cookie }

/-- `PolkitWrapper::onFidoTimeout` (src/polkit-wrapper.cpp:873-902). -/
def onFidoTimeout (w : Wrapper) (cookie : String) : Wrapper :=
  match getSession w cookie with
  | none => w
  | some session =>
    let w1 :=
      if session.fidoTimeoutTimer then
        { w with sessions := aupdate clearTimer w.sessions cookie }
      else w
    if session.state ≠ AuthenticationState.TRYING_FIDO then w1
    else
      let w2 := setState w1 cookie AuthenticationState.FIDO_FAILED
      { w2 with signals := w2.signals
        ++ [Signal.authenticationMethodFailed cookie AuthenticationMethod.FIDO
              "Security key timeout - no response within 15 seconds"] }

/-- Session-registration part of `initiateAuthentication`
(src/polkit-wrapper.cpp:150-159): record the NFC probe, create the
`SessionState` and store it under the cookie, and ledger the daemon-side
`AsyncResult` object when one was supplied. -/
def initiateRegister (w : Wrapper) (actionId cookie : String)
    (hasResult nfcDetected : Bool) : Wrapper :=
  let w0 := { w with nfcReaderPresent := nfcDetected }
  let sessionState : SessionState :=
    { state := AuthenticationState.IDLE, cookie := cookie, actionId := actionId,
      result := hasResult }
  { w0 with
    sessions := aset w0.sessions cookie sessionState,
    asyncResults := if hasResult then aset w0.asyncResults cookie {} else w0.asyncResults }

/-- `PolkitWrapper::initiateAuthentication` (src/polkit-wrapper.cpp:139-334).
`nfcDetected` is the result of `detectNfcReader()` (an external probe);
`hasIdentities` tells whether the identity list is non-empty; `hasResult`
whether the daemon passed a non-null `AsyncResult*`.  Message transformation
(`transformAuthMessage`) depends on the environment and `/proc`; it is the
identity here, which matches its behaviour for non-run0 requests. -/
def initiateAuthentication (w : Wrapper) (actionId message iconName cookie : String)
    (hasIdentities hasResult nfcDetected : Bool) : Wrapper :=
  let w1 := initiateRegister w actionId cookie hasResult nfcDetected
  let w2 := setState w1 cookie AuthenticationState.INITIATED
  let w3 :=
    if hasIdentities then
      { w2 with
        sessions := aupdate attachPam w2.sessions cookie }
    else w2
  { w3 with signals := w3.signals
    ++ [Signal.showAuthDialog actionId message iconName cookie] }

/-- `PolkitWrapper::cancelAuthentication` (Listener interface): set every
session to `CANCELLED` and clean it up. -/
def cancelAuthentication (w : Wrapper) : Wrapper :=
  (w.sessions.map Prod.fst).foldl
    (fun acc cookie => cleanupSession (setState acc cookie AuthenticationState.CANCELLED) cookie)
    w

/-- `PolkitWrapper::sessionRetryCount`. -/
def sessionRetryCount (w : Wrapper) (cookie : String) : Nat :=
  match getSession w cookie with
  | some s => s.retryCount
  | none => 0

/-- `PolkitWrapper::hasActiveSessions`. -/
def hasActiveSessions (w : Wrapper) : Bool :=
  !w.sessions.isEmpty

/-- One externally triggered step of the wrapper: a daemon request, a backend
callback, a timer fire, or a client call forwarded by the IPC server. -/
inductive WrapperEvent : Type where
  | initiate (actionId message iconName cookie : String)
      (hasIdentities hasResult nfcDetected : Bool)
  | completed (cookie actionId : String) (gainedAuthorization : Bool)
  | request (cookie actionId requestText : String) (echo : Bool)
  | showErrorEv (cookie actionId text : String)
  | submit (cookie response : String)
  | fidoTimeout (cookie : String)
  | cancelAll
deriving DecidableEq

/-- The transition function tying the wrapper's entry points together. -/
def step (w : Wrapper) : WrapperEvent → Wrapper
  | WrapperEvent.initiate a m i c hi hr nd => initiateAuthentication w a m i c hi hr nd
  | WrapperEvent.completed c a g => onSessionCompleted w c a g
  | WrapperEvent.request c a r e => onSessionRequest w c a r e
  | WrapperEvent.showErrorEv c a t => onSessionShowError w c a t
  | WrapperEvent.submit c r => submitAuthenticationResponse w c r
  | WrapperEvent.fidoTimeout c => onFidoTimeout w c
  | WrapperEvent.cancelAll => cancelAuthentication w

/-- Whether an event replaces the session at `cookie` with a fresh one
(starting a new session life). -/
def WrapperEvent.isInitiateFor : WrapperEvent → String → Bool
  | WrapperEvent.initiate _ _ _ c _ _ _, cookie => c = cookie
  | _, _ => false

end PolkitWrapper

/-! Association-list lemmas used throughout the session-registry proofs. -/

theorem alookup_aupdate {α : Type} (f : α → α) (l : List (String × α)) (k k' : String) :
    alookup (aupdate f l k') k = if k = k' then (alookup l k).map f else alookup l k := by
  induction l with
  | nil =>
    by_cases h : k = k' <;> simp [alookup, aupdate, h]
  | cons e rest ih =>
    obtain ⟨a, b⟩ := e
    by_cases h1 : k' = a
    · subst h1
      by_cases h2 : k = k' <;> simp [alookup, aupdate, h2]
    · by_cases h2 : k = a
      · subst h2
        have h3 : ¬(k = k') := fun h => h1 h.symm
        simp [alookup, aupdate, h1, h3]
      · simp [alookup, aupdate, h1, h2, ih]

theorem alookup_aset {α : Type} (l : List (String × α)) (k k' : String) (v : α) :
    alookup (aset l k' v) k = if k = k' then some v else alookup l k := by
  induction l with
  | nil =>
    by_cases h : k = k' <;> simp [alookup, aset, h]
  | cons e rest ih =>
    obtain ⟨a, b⟩ := e
    by_cases h1 : k' = a
    · subst h1
      by_cases h2 : k = k' <;> simp [alookup, aset, h2]
    · by_cases h2 : k = a
      · subst h2
        have h3 : ¬(k = k') := fun h => h1 h.symm
        simp [alookup, aset, h1, h3]
      · simp [alookup, aset, h1, h2, ih]

theorem alookup_aremove {α : Type} (l : List (String × α)) (k k' : String) :
    alookup (aremove l k') k = if k = k' then none else alookup l k := by
  induction l with
  | nil =>
    by_cases h : k = k' <;> simp [alookup, aremove, h]
  | cons e rest ih =>
    obtain ⟨a, b⟩ := e
    by_cases h1 : k' = a
    · subst h1
      by_cases h2 : k = k' <;> simp [alookup, aremove, h2, ih] <;> simp_all
    · by_cases h2 : k = a
      · subst h2
        have h3 : ¬(k = k') := fun h => h1 h.symm
        simp [alookup, aremove, h1, h3]
      · simp [alookup, aremove, h1, h2, ih]

/-! Order facts about the key comparison, and `QJsonObject` operation lemmas. -/

theorem strLtList_irrefl : ∀ l : List Char, strLtList l l = false := by
  intro l
  induction l with
  | nil => rfl
  | cons a as ih => simp [strLtList, ih]

theorem strLtList_asymm : ∀ l1 l2 : List Char,
    strLtList l1 l2 = true → strLtList l2 l1 = false := by
  intro l1
  induction l1 with
  | nil =>
    intro l2 h
    cases l2 with
    | nil => simp [strLtList] at h
    | cons b bs => simp [strLtList]
  | cons a as ih =>
    intro l2 h
    cases l2 with
    | nil => simp [strLtList] at h
    | cons b bs =>
      rcases Nat.lt_trichotomy a.toNat b.toNat with hab | hab | hab
      · simp [strLtList, show ¬(b.toNat < a.toNat) from by omega, hab]
      · have h1 : ¬(a.toNat < b.toNat) := by omega
        have h2 : ¬(b.toNat < a.toNat) := by omega
        simp only [strLtList, if_neg h1, if_neg h2] at h
        simp only [strLtList, if_neg h2, if_neg h1]
        exact ih bs h
      · simp [strLtList, show ¬(a.toNat < b.toNat) from by omega, hab] at h

theorem strLtList_trans : ∀ l1 l2 l3 : List Char,
    strLtList l1 l2 = true → strLtList l2 l3 = true → strLtList l1 l3 = true := by
  intro l1
  induction l1 with
  | nil =>
    intro l2 l3 h12 h23
    cases l3 with
    | nil =>
      cases l2 with
      | nil => simp [strLtList] at h12
      | cons b bs => simp [strLtList] at h23
    | cons c cs => simp [strLtList]
  | cons a as ih =>
    intro l2 l3 h12 h23
    cases l2 with
    | nil => simp [strLtList] at h12
    | cons b bs =>
      cases l3 with
      | nil => simp [strLtList] at h23
      | cons c cs =>
        rcases Nat.lt_trichotomy a.toNat b.toNat with hab | hab | hab
        · rcases Nat.lt_trichotomy b.toNat c.toNat with hbc | hbc | hbc
          · simp [strLtList, show a.toNat < c.toNat from by omega]
          · simp [strLtList, show a.toNat < c.toNat from by omega]
          · simp [strLtList, show ¬(b.toNat < c.toNat) from by omega, hbc] at h23
        · rcases Nat.lt_trichotomy b.toNat c.toNat with hbc | hbc | hbc
          · simp [strLtList, show a.toNat < c.toNat from by omega]
          · have h1 : ¬(a.toNat < b.toNat) := by omega
            have h2 : ¬(b.toNat < a.toNat) := by omega
            have h3 : ¬(b.toNat < c.toNat) := by omega
            have h4 : ¬(c.toNat < b.toNat) := by omega
            have h5 : ¬(a.toNat < c.toNat) := by omega
            have h6 : ¬(c.toNat < a.toNat) := by omega
            simp only [strLtList, if_neg h1, if_neg h2] at h12
            simp only [strLtList, if_neg h3, if_neg h4] at h23
            simp only [strLtList, if_neg h5, if_neg h6]
            exact ih bs cs h12 h23
          · simp [strLtList, show ¬(b.toNat < c.toNat) from by omega, hbc] at h23
        · simp [strLtList, show ¬(a.toNat < b.toNat) from by omega, hab] at h12

theorem strLtList_connex : ∀ l1 l2 : List Char,
    strLtList l1 l2 = false → l1 ≠ l2 → strLtList l2 l1 = true := by
  intro l1
  induction l1 with
  | nil =>
    intro l2 h hne
    cases l2 with
    | nil => exact absurd rfl hne
    | cons b bs => simp [strLtList] at h
  | cons a as ih =>
    intro l2 h hne
    cases l2 with
    | nil => simp [strLtList]
    | cons b bs =>
      rcases Nat.lt_trichotomy a.toNat b.toNat with hab | hab | hab
      · simp [strLtList, hab] at h
      · have h1 : ¬(a.toNat < b.toNat) := by omega
        have h2 : ¬(b.toNat < a.toNat) := by omega
        simp only [strLtList, if_neg h1, if_neg h2] at h
        simp only [strLtList, if_neg h2, if_neg h1]
        have hEq : a = b := char_toNat_injective (by omega)
        subst hEq
        exact ih bs h (fun hh => hne (by rw [hh]))
      · simp [strLtList, show ¬(a.toNat < b.toNat) from by omega, hab]

theorem strLt_irrefl (a : String) : strLt a a = false := strLtList_irrefl a.data

theorem strLt_asymm {a b : String} (h : strLt a b = true) : strLt b a = false :=
  strLtList_asymm a.data b.data h

theorem strLt_trans {a b c : String} (h1 : strLt a b = true) (h2 : strLt b c = true) :
    strLt a c = true := strLtList_trans a.data b.data c.data h1 h2

theorem strLt_connex {a b : String} (h : strLt a b = false) (hne : a ≠ b) :
    strLt b a = true := by
  refine strLtList_connex a.data b.data h (fun hd => hne ?_)
  cases a
  cases b
  exact congrArg String.mk hd

theorem jget_jinsert (j : Json) (k x : String) (v : JVal) :
    jget (jinsert j k v) x = if x = k then some v else jget j x := by
  induction j with
  | nil => simp [jinsert, jget]
  | cons e rest ih =>
    obtain ⟨k', v'⟩ := e
    by_cases h1 : strLt k k' = true
    · simp only [jinsert, if_pos h1]
      by_cases h2 : x = k
      · simp [jget, h2]
      · simp [jget, h2]
    · rw [Bool.not_eq_true] at h1
      by_cases h2 : k = k'
      · subst h2
        simp only [jinsert, h1, Bool.false_eq_true, if_false, if_pos rfl]
        by_cases h3 : x = k
        · simp [jget, h3]
        · simp [jget, h3]
      · simp only [jinsert, h1, Bool.false_eq_true, if_false, if_neg h2]
        by_cases h3 : x = k'
        · subst h3
          have h4 : ¬(x = k) := fun hh => h2 hh.symm
          simp [jget, h4]
        · simp [jget, h3, ih]

theorem jget_jremove (j : Json) (k x : String) :
    jget (jremove j k) x = if x = k then none else jget j x := by
  induction j with
  | nil => simp [jremove, jget]
  | cons e rest ih =>
    obtain ⟨k', v'⟩ := e
    by_cases h1 : k = k'
    · subst h1
      simp only [jremove, if_pos rfl]
      by_cases h2 : x = k
      · subst h2
        simp [jget, ih]
      · simp [jget, h2, ih]
    · simp only [jremove, if_neg h1]
      by_cases h2 : x = k'
      · subst h2
        have h3 : ¬(x = k) := fun hh => h1 hh.symm
        simp [jget, h3]
      · simp [jget, h2, ih]

theorem jcontains_jinsert (j : Json) (k x : String) (v : JVal) :
    jcontains (jinsert j k v) x = if x = k then true else jcontains j x := by
  by_cases h : x = k <;> simp [jcontains, jget_jinsert, h]

theorem jget_mem : ∀ {j : Json} {k : String} {v : JVal}, jget j k = some v → (k, v) ∈ j := by
  intro j
  induction j with
  | nil => intro k v h; simp [jget] at h
  | cons e rest ih =>
    intro k v h
    obtain ⟨k', v'⟩ := e
    by_cases h1 : k = k'
    · subst h1
      simp [jget] at h
      simp [h]
    · simp only [jget, if_neg h1] at h
      exact List.mem_cons_of_mem _ (ih h)

theorem jget_none_of_all_lt : ∀ {j : Json} {k : String},
    (∀ e ∈ j, strLt k e.1 = true) → jget j k = none := by
  intro j
  induction j with
  | nil => intro k _; rfl
  | cons e rest ih =>
    intro k hall
    obtain ⟨k', v'⟩ := e
    have hlt : strLt k k' = true := hall (k', v') (by simp)
    have hne : ¬(k = k') := by
      intro hh
      subst hh
      rw [strLt_irrefl] at hlt
      exact Bool.false_ne_true hlt
    simp only [jget, if_neg hne]
    exact ih (fun e he => hall e (List.mem_cons_of_mem _ he))

theorem jext : ∀ {j1 j2 : Json}, JsonWF j1 → JsonWF j2 →
    (∀ x, jget j1 x = jget j2 x) → j1 = j2 := by
  intro j1
  induction j1 with
  | nil =>
    intro j2 _ _ h
    cases j2 with
    | nil => rfl
    | cons e t =>
      obtain ⟨k2, v2⟩ := e
      have := h k2
      simp [jget] at this
  | cons e1 t1 ih =>
    intro j2 hwf1 hwf2 h
    obtain ⟨k1, v1⟩ := e1
    cases j2 with
    | nil =>
      have := h k1
      simp [jget] at this
    | cons e2 t2 =>
      obtain ⟨k2, v2⟩ := e2
      rw [JsonWF, List.pairwise_cons] at hwf1 hwf2
      by_cases hk : k1 = k2
      · subst hk
        have hv : v1 = v2 := by
          have := h k1
          simpa [jget] using this
        subst hv
        have htail : ∀ x, jget t1 x = jget t2 x := by
          intro x
          by_cases hx : x = k1
          · subst hx
            rw [jget_none_of_all_lt hwf1.1, jget_none_of_all_lt hwf2.1]
          · have := h x
            simpa [jget, if_neg hx] using this
        rw [ih hwf1.2 hwf2.2 htail]
      · exfalso
        have h1 : jget t2 k1 = some v1 := by
          have := (h k1).symm
          have hk' : ¬(k1 = k2) := hk
          simpa [jget, if_neg hk'] using this
        have h2 : jget t1 k2 = some v2 := by
          have := h k2
          have hk' : ¬(k2 = k1) := fun hh => hk hh.symm
          simpa [jget, if_neg hk'] using this
        have hlt1 : strLt k2 k1 = true := hwf2.1 _ (jget_mem h1)
        have hlt2 : strLt k1 k2 = true := hwf1.1 _ (jget_mem h2)
        rw [strLt_asymm hlt2] at hlt1
        exact Bool.false_ne_true hlt1

theorem jinsert_mem : ∀ {j : Json} {k : String} {v : JVal} (e : String × JVal),
    e ∈ jinsert j k v → e = (k, v) ∨ e ∈ j := by
  intro j
  induction j with
  | nil =>
    intro k v e h
    simp [jinsert] at h
    exact Or.inl h
  | cons hd rest ih =>
    intro k v e h
    obtain ⟨k', v'⟩ := hd
    by_cases h1 : strLt k k' = true
    · simp only [jinsert, if_pos h1] at h
      rcases List.mem_cons.mp h with h2 | h2
      · exact Or.inl h2
      · exact Or.inr h2
    · rw [Bool.not_eq_true] at h1
      by_cases h2 : k = k'
      · subst h2
        simp only [jinsert, h1, Bool.false_eq_true, if_false, if_pos rfl] at h
        rcases List.mem_cons.mp h with h3 | h3
        · exact Or.inl h3
        · exact Or.inr (List.mem_cons_of_mem _ h3)
      · simp only [jinsert, h1, Bool.false_eq_true, if_false, if_neg h2] at h
        rcases List.mem_cons.mp h with h3 | h3
        · exact Or.inr (by simp [h3])
        · rcases ih e h3 with h4 | h4
          · exact Or.inl h4
          · exact Or.inr (List.mem_cons_of_mem _ h4)

theorem jinsert_wf : ∀ {j : Json} {k : String} {v : JVal},
    JsonWF j → JsonWF (jinsert j k v) := by
  intro j
  induction j with
  | nil => intro k v _; simp [jinsert, JsonWF]
  | cons hd rest ih =>
    intro k v hwf
    obtain ⟨k', v'⟩ := hd
    have hwf' := hwf
    rw [JsonWF, List.pairwise_cons] at hwf'
    by_cases h1 : strLt k k' = true
    · simp only [jinsert, if_pos h1]
      rw [JsonWF, List.pairwise_cons]
      constructor
      · intro e he
        rcases List.mem_cons.mp he with h2 | h2
        · rw [h2]
          exact h1
        · exact strLt_trans h1 (hwf'.1 e h2)
      · exact hwf
    · rw [Bool.not_eq_true] at h1
      by_cases h2 : k = k'
      · subst h2
        simp only [jinsert, h1, Bool.false_eq_true, if_false, eq_self_iff_true, if_true]
        rw [JsonWF, List.pairwise_cons]
        exact ⟨hwf'.1, hwf'.2⟩
      · simp only [jinsert, h1, Bool.false_eq_true, if_false, if_neg h2]
        rw [JsonWF, List.pairwise_cons]
        constructor
        · intro e he
          rcases jinsert_mem e he with h3 | h3
          · rw [h3]
            show strLt k' k = true
            exact strLt_connex h1 h2
          · exact hwf'.1 e h3
        · exact ih hwf'.2

theorem jremove_sublist : ∀ (j : Json) (k : String), List.Sublist (jremove j k) j := by
  intro j k
  induction j with
  | nil => simp [jremove]
  | cons hd rest ih =>
    obtain ⟨k', v'⟩ := hd
    by_cases h1 : k = k'
    · simp only [jremove, if_pos h1]
      exact ih.cons _
    · simp only [jremove, if_neg h1]
      exact ih.cons₂ _

theorem jremove_wf {j : Json} {k : String} (h : JsonWF j) : JsonWF (jremove j k) :=
  List.Pairwise.sublist (jremove_sublist j k) h

theorem jremove_jinsert_self {j : Json} {k : String} {v : JVal} (hwf : JsonWF j) :
    jremove (jinsert j k v) k = jremove j k := by
  refine jext (jremove_wf (jinsert_wf hwf)) (jremove_wf hwf) (fun x => ?_)
  by_cases h : x = k <;> simp [jget_jremove, jget_jinsert, h]

theorem jremove_of_jget_none {j : Json} {k : String} (hwf : JsonWF j)
    (h : jget j k = none) : jremove j k = j := by
  refine jext (jremove_wf hwf) hwf (fun x => ?_)
  by_cases hx : x = k
  · subst hx
    simp [jget_jremove, h]
  · simp [jget_jremove, hx]

theorem jinsert_get_self {j : Json} {k : String} {v : JVal} (hwf : JsonWF j)
    (h : jget j k = some v) : jinsert j k v = j := by
  refine jext (jinsert_wf hwf) hwf (fun x => ?_)
  by_cases hx : x = k
  · subst hx
    simp [jget_jinsert, h]
  · simp [jget_jinsert, hx]

theorem jremove_jinsert_ne {j : Json} {k kr : String} {v : JVal} (hwf : JsonWF j)
    (hne : k ≠ kr) : jremove (jinsert j k v) kr = jinsert (jremove j kr) k v := by
  refine jext (jremove_wf (jinsert_wf hwf)) (jinsert_wf (jremove_wf hwf)) (fun x => ?_)
  by_cases h1 : x = kr
  · subst h1
    have h2 : ¬(x = k) := fun hh => hne hh.symm
    simp [jget_jremove, jget_jinsert, h2]
  · by_cases h2 : x = k
    · subst h2
      simp [jget_jremove, jget_jinsert, h1]
    · simp [jget_jremove, jget_jinsert, h1, h2]

/-!
Concrete runs of the wrapper model.  `pwTrace*` drives a password-only
authentication (no NFC reader) through a first wrong-password failure;
`fidoTrace*` drives an NFC-present session into `TRYING_FIDO` and then
submits a password during the security-key attempt.
-/

/-- Fresh wrapper, no sessions. -/
def pwTrace0 : PolkitWrapper.Wrapper := {}

/-- Daemon initiates authentication for cookie "cookie-a" (identity list
non-empty, `AsyncResult` supplied, no NFC reader detected). -/
def pwTrace1 : PolkitWrapper.Wrapper :=
  PolkitWrapper.step pwTrace0
    (PolkitWrapper.WrapperEvent.initiate "org.example.run" "Authenticate" "dialog-password"
      "cookie-a" true true false)

/-- PAM asks for the password. -/
def pwTrace2 : PolkitWrapper.Wrapper :=
  PolkitWrapper.step pwTrace1
    (PolkitWrapper.WrapperEvent.request "cookie-a" "org.example.run" "Password:" false)

/-- The user submits a wrong password. -/
def pwTrace3 : PolkitWrapper.Wrapper :=
  PolkitWrapper.step pwTrace2
    (PolkitWrapper.WrapperEvent.submit "cookie-a" "wrong-password")

/-- The backend reports `completed(false)` — the first failure, so the
incremented retry count (1) is still below `MAX_AUTH_RETRIES` (3). -/
def pwTrace4 : PolkitWrapper.Wrapper :=
  PolkitWrapper.step pwTrace3
    (PolkitWrapper.WrapperEvent.completed "cookie-a" "org.example.run" false)

/-- Claim C1: when the backend reports `completed(success=false)` and the
incremented retryCount is below `MAX_AUTH_RETRIES`, the session transitions to
`AUTHENTICATION_FAILED`, the backend conversation is restarted, the session
reaches `WAITING_FOR_PASSWORD`, and the session is not torn down (it stays in
the registry with its pending async result uncompleted).  The code evaluated
at this failing input shows the opposite: the below-max branch is taken
(`AUTHENTICATION_FAILED` is signalled with retry count 1 of 3), yet the
session is erased from the registry, the backend conversation is never asked
to restart, and the pending async result is completed (twice) on the spot. -/
theorem C1_completed_failure_below_max_tears_down_session :
    PolkitWrapper.MAX_AUTH_RETRIES = 3
    ∧ PolkitWrapper.sessionRetryCount pwTrace3 "cookie-a" = 0
    ∧ (PolkitWrapper.Signal.authenticationStateChanged "cookie-a"
        AuthenticationState.AUTHENTICATION_FAILED) ∈ pwTrace4.signals
    ∧ (PolkitWrapper.Signal.authenticationStateChanged "cookie-a"
        AuthenticationState.MAX_RETRIES_EXCEEDED) ∉ pwTrace4.signals
    ∧ PolkitWrapper.getSession pwTrace4 "cookie-a" = none
    ∧ pwTrace4.sessions = []
    ∧ alookup pwTrace4.asyncResults "cookie-a"
        = some { errorCalls := 2, completedCalls := 2 } := by
  decide

/-- The same run as `pwTrace*` for a second cookie, used to examine cleanup
behaviour after a failure has already completed the async result. -/
def cuTrace1 : PolkitWrapper.Wrapper :=
  PolkitWrapper.step {}
    (PolkitWrapper.WrapperEvent.initiate "org.example.clean" "Authenticate" "dialog-password"
      "cookie-b" true true false)

def cuTrace2 : PolkitWrapper.Wrapper :=
  PolkitWrapper.step cuTrace1
    (PolkitWrapper.WrapperEvent.request "cookie-b" "org.example.clean" "Password:" false)

def cuTrace3 : PolkitWrapper.Wrapper :=
  PolkitWrapper.step cuTrace2
    (PolkitWrapper.WrapperEvent.submit "cookie-b" "bad-pass")

def cuTrace4 : PolkitWrapper.Wrapper :=
  PolkitWrapper.step cuTrace3
    (PolkitWrapper.WrapperEvent.completed "cookie-b" "org.example.clean" false)

/-- Claim C3: cleanup is idempotent and a session's pending async result is
completed at most once over its life — in particular not completed again
during cleanup after a failure path has already completed it.  Idempotence
holds (a second `cleanupSession` on the erased cookie is a no-op), but the
code evaluated at the failure input completes the result twice: once in the
`completed` handler (`setError`+`setCompleted`) and once more inside
`cleanupSession`, whose guard checks `state != COMPLETED` instead of whether
the result was already completed — the state here is
`AUTHENTICATION_FAILED`, so it errors-and-completes the result a second
time. -/
theorem C3_cleanup_idempotent_but_result_completed_twice :
    PolkitWrapper.cleanupSession cuTrace4 "cookie-b" = cuTrace4
    ∧ alookup cuTrace4.asyncResults "cookie-b"
        = some { errorCalls := 2, completedCalls := 2 } := by
  decide

/-- `{"type":"heartbeat"}`. -/
def hbMsg : Json := jinsert jempty "type" (JVal.str "heartbeat")

/-- `{"type":"heartbeat","timestamp":1234567890}`. -/
def hbMsgTs : Json := jinsert hbMsg "timestamp" (JVal.num 1234567890)

/-- A connected IPC client whose session began at time 50000. -/
def hbServer : IPCServer.State :=
  { clientConnected := true, sessionStartTime := 50000, lastHeartbeat := 49000 }

/-- Claim C4: a "heartbeat" message (with at most an optional numeric
timestamp) passes message validation and the server always replies with a
`heartbeat_ack` carrying its current timestamp, resetting both liveness
clocks.  The code evaluated at this input disagrees: "heartbeat" is missing
from `VALID_MESSAGE_TYPES` in src/message-validator.cpp, so validation fails
with "Invalid message type: heartbeat", the server replies with an `error`
message instead of a `heartbeat_ack`, and neither the heartbeat clock nor the
session-timeout clock is touched — the heartbeat branch of
`handleClientMessage` is unreachable.  (The repository's own header declares
`validateHeartbeat` and its unit tests expect these messages to validate.) -/
theorem C4_heartbeat_rejected_by_validator :
    MessageValidator.validateMessage hbMsg
        = MessageValidator.failure "Invalid message type: heartbeat"
    ∧ MessageValidator.validateMessage hbMsgTs
        = MessageValidator.failure "Invalid message type: heartbeat"
    ∧ (IPCServer.handleClientMessage macModel 100 hbServer hbMsg 50000).sent
        = [jinsert (jinsert jempty "type" (JVal.str "error")) "error"
            (JVal.str "Invalid message: Invalid message type: heartbeat")]
    ∧ (IPCServer.handleClientMessage macModel 100 hbServer hbMsg 50000).lastHeartbeat
        = 49000
    ∧ (IPCServer.handleClientMessage macModel 100 hbServer hbMsg 50000).sessionStartTime
        = 50000 := by
  decide

/-- `{"hmac":"deadbeef","timestamp":1000,"type":"cancel_authorization"}` —
a cancel message carrying the signed-delivery fields. -/
def signedCancelMsg : Json :=
  jinsert (jinsert (jinsert jempty "type" (JVal.str "cancel_authorization"))
    "timestamp" (JVal.num 1000)) "hmac" (JVal.str "deadbeef")

/-- Claim C8 counterexample: a signed `cancel_authorization` message does not
pass schema validation — `validateCancelAuthorization` rejects any field
other than `type`, so the claim's "every supported inbound type — including
cancel_authorization — may carry timestamp and hmac" is false at this
input. -/
theorem C8_signed_cancel_authorization_rejected :
    MessageValidator.validateMessage signedCancelMsg
        = MessageValidator.failure "Unexpected field in cancel_authorization: hmac"
    ∧ (MessageValidator.validateMessage signedCancelMsg).valid = false := by
  decide

/-- NFC reader present: the daemon initiates authentication for "cookie-c". -/
def fidoTrace1 : PolkitWrapper.Wrapper :=
  PolkitWrapper.step {}
    (PolkitWrapper.WrapperEvent.initiate "org.example.fido" "Authenticate" "dialog-password"
      "cookie-c" true true true)

/-- First PAM prompt: the wrapper auto-attempts FIDO, arming the fallback
timer and answering the backend with an empty response. -/
def fidoTrace2 : PolkitWrapper.Wrapper :=
  PolkitWrapper.step fidoTrace1
    (PolkitWrapper.WrapperEvent.request "cookie-c" "org.example.fido" "Password:" false)

/-- The user types a password while the security-key attempt is pending. -/
def fidoTrace3 : PolkitWrapper.Wrapper :=
  PolkitWrapper.step fidoTrace2
    (PolkitWrapper.WrapperEvent.submit "cookie-c" "hunter2")

/-- Claim C5 counterexample: submitting a non-empty response while
`TRYING_FIDO` is claimed to cancel the pending FIDO fallback timer.  At this
concrete input the session does transition `TRYING_FIDO → AUTHENTICATING`,
but the armed timer is still there after the submission —
`submitAuthenticationResponse` never calls `cancelFidoTimeout`. -/
theorem C5_submit_during_fido_leaves_timer_armed :
    (PolkitWrapper.getSession fidoTrace2 "cookie-c").map
        (fun s => (s.state, s.fidoTimeoutTimer))
      = some (AuthenticationState.TRYING_FIDO, true)
    ∧ (PolkitWrapper.getSession fidoTrace3 "cookie-c").map
        (fun s => (s.state, s.fidoTimeoutTimer))
      = some (AuthenticationState.AUTHENTICATING, true) := by
  decide

/-- Claim C9: the outbound queue never exceeds 50 entries; queueing onto a
full queue drops the oldest entry first; and `welcome`, `error` and
`heartbeat_ack` messages are never queued. -/
theorem C9_outbound_queue_bounded_fifo :
    (∀ (st : IPCServer.State) (message : Json),
      st.pendingMessages.length ≤ IPCServer.MAX_QUEUED_MESSAGES →
      (IPCServer.queueMessage st message).pendingMessages.length
        ≤ IPCServer.MAX_QUEUED_MESSAGES)
    ∧ (∀ (st : IPCServer.State) (message : Json),
      jgetStr message "type" ≠ "heartbeat_ack" →
      jgetStr message "type" ≠ "error" →
      jgetStr message "type" ≠ "welcome" →
      st.pendingMessages.length = IPCServer.MAX_QUEUED_MESSAGES →
      (IPCServer.queueMessage st message).pendingMessages
        = st.pendingMessages.tail ++ [message])
    ∧ (∀ (st : IPCServer.State) (message : Json),
      (jgetStr message "type" = "heartbeat_ack" ∨ jgetStr message "type" = "error"
        ∨ jgetStr message "type" = "welcome") →
      IPCServer.queueMessage st message = st) := by
  refine ⟨?_, ?_, ?_⟩
  · intro st message h
    unfold IPCServer.queueMessage
    by_cases ht : (jgetStr message "type" = "heartbeat_ack"
        || jgetStr message "type" = "error" || jgetStr message "type" = "welcome") = true
    · simp [ht]
      exact h
    · rw [Bool.not_eq_true] at ht
      simp only [ht, Bool.false_eq_true, if_false]
      by_cases hlen : st.pendingMessages.length ≥ IPCServer.MAX_QUEUED_MESSAGES
      · simp only [hlen, if_pos]
        have hmax : IPCServer.MAX_QUEUED_MESSAGES = 50 := by decide
        simp only [List.length_append, List.length_tail, List.length_cons,
          List.length_nil]
        omega
      · simp only [hlen, if_neg, if_false, List.length_append, List.length_cons,
          List.length_nil]
        simp only [not_le] at hlen
        omega
  · intro st message h1 h2 h3 hlen
    unfold IPCServer.queueMessage
    simp only [h1, h2, h3, decide_False, Bool.or_self, Bool.false_eq_true, if_false]
    have hge : st.pendingMessages.length ≥ IPCServer.MAX_QUEUED_MESSAGES := by omega
    simp [hge, h1, h2, h3]
  · intro st message h
    unfold IPCServer.queueMessage
    rcases h with h | h | h <;> simp [h]

/-- An element appended at the back survives the front eviction scan when the
predicate does not hold of it. -/
theorem mem_dropWhile_append_singleton {α : Type} (p : α → Bool) (l : List α) (a : α)
    (h : p a = false) : a ∈ (l ++ [a]).dropWhile p := by
  induction l with
  | nil => simp [List.dropWhile, h]
  | cons x xs ih =>
    by_cases hx : p x = true
    · simpa [List.dropWhile, hx] using ih
    · rw [Bool.not_eq_true] at hx
      simp [List.dropWhile, hx]

/-- Claim C10: the rate-limit check appends the arrival timestamp before
evicting entries older than 1000 ms and before the admission decision; the
timestamp is retained in the window state regardless of the decision (so
rejected messages count against later ones); and admission fails exactly when
the retained count (including the current message) exceeds the ceiling. -/
theorem C10_rate_limit_append_then_evict :
    ∀ (maxMessagesPerSecond : Nat) (st : IPCServer.State) (now : Int),
      ((IPCServer.checkRateLimit maxMessagesPerSecond st now).1).messageTimestamps
          = (st.messageTimestamps ++ [now]).dropWhile (fun t => now - t > 1000)
      ∧ now ∈ ((IPCServer.checkRateLimit maxMessagesPerSecond st now).1).messageTimestamps
      ∧ (((IPCServer.checkRateLimit maxMessagesPerSecond st now).2 = false)
          ↔ ((IPCServer.checkRateLimit maxMessagesPerSecond st now).1).messageTimestamps.length
              > maxMessagesPerSecond) := by
  intro maxMessagesPerSecond st now
  have hkeep : (fun t => decide (now - t > IPCServer.RATE_LIMIT_WINDOW_MS)) now = false := by
    simp [IPCServer.RATE_LIMIT_WINDOW_MS]
  refine ⟨?_, ?_, ?_⟩
  · simp only [IPCServer.checkRateLimit]
    split <;> rfl
  · simp only [IPCServer.checkRateLimit]
    split
    · exact mem_dropWhile_append_singleton _ st.messageTimestamps now hkeep
    · exact mem_dropWhile_append_singleton _ st.messageTimestamps now hkeep
  · simp only [IPCServer.checkRateLimit]
    split
    next h => simpa using h
    next h => simpa using h

namespace PolkitWrapper

/-- Retry counter visible for a cookie, if the session exists. -/
def retryAt (w : Wrapper) (c : String) : Option Nat :=
  (getSession w c).map SessionState.retryCount

/-- State visible for a cookie, if the session exists. -/
def stateAt (w : Wrapper) (c : String) : Option AuthenticationState :=
  (getSession w c).map SessionState.state

theorem sessions_completeResultError (w : Wrapper) (c : String) :
    (completeResultError w c).sessions = w.sessions := rfl

theorem signals_completeResultError (w : Wrapper) (c : String) :
    (completeResultError w c).signals = w.signals := rfl

theorem getSession_setState (w : Wrapper) (c : String) (t : AuthenticationState)
    (x : String) :
    getSession (setState w c t) x
      = if x = c then (getSession w x).map (fun s => { s with state := t })
        else getSession w x := by
  unfold setState
  rcases hg : getSession w c with _ | s
  · by_cases hx : x = c
    · subst hx
      simp [hg]
    · simp [hx]
  · by_cases hst : s.state = t
    · simp only [hg, hst, eq_self_iff_true, if_true]
      by_cases hx : x = c
      · subst hx
        rw [hg]
        subst hst
        simp only [eq_self_iff_true, if_true]
        rfl
      · simp [hx]
    · simp only [hg, if_neg hst]
      show alookup (aupdate _ w.sessions c) x = _
      rw [alookup_aupdate]
      by_cases hx : x = c <;> simp [hx, getSession]

theorem getSession_setMethod (w : Wrapper) (c : String) (m : AuthenticationMethod)
    (x : String) :
    getSession (setMethod w c m) x
      = if x = c then (getSession w x).map (fun s => { s with method := m })
        else getSession w x := by
  unfold setMethod
  rcases hg : getSession w c with _ | s
  · by_cases hx : x = c
    · subst hx
      simp [hg]
    · simp [hx]
  · by_cases hst : s.method = m
    · simp only [hg, hst, eq_self_iff_true, if_true]
      by_cases hx : x = c
      · subst hx
        rw [hg]
        subst hst
        simp only [eq_self_iff_true, if_true]
        rfl
      · simp [hx]
    · simp only [hg, if_neg hst]
      show alookup (aupdate _ w.sessions c) x = _
      rw [alookup_aupdate]
      by_cases hx : x = c <;> simp [hx, getSession]

theorem getSession_cancelFidoTimeout (w : Wrapper) (c x : String) :
    getSession (cancelFidoTimeout w c) x
      = if x = c then (getSession w x).map clearTimer else getSession w x := by
  unfold cancelFidoTimeout
  rcases hg : getSession w c with _ | s
  · by_cases hx : x = c
    · subst hx
      simp [hg]
    · simp [hx]
  · by_cases ht : s.fidoTimeoutTimer = true
    · simp only [hg, ht, Bool.not_true, Bool.false_eq_true, if_false]
      show alookup (aupdate clearTimer w.sessions c) x = _
      rw [alookup_aupdate]
      by_cases hx : x = c <;> simp [hx, getSession]
    · rw [Bool.not_eq_true] at ht
      simp only [hg, ht, Bool.not_false, if_true]
      by_cases hx : x = c
      · subst hx
        simp only [if_pos rfl, hg, Option.map_some]
        refine congrArg some ?_
        show s = clearTimer s
        unfold clearTimer
        rw [← ht]
      · simp [hx]

theorem signals_setState_of_ne (w : Wrapper) (c : String) (t : AuthenticationState)
    (s : SessionState) (hg : getSession w c = some s) (hne : s.state ≠ t) :
    (setState w c t).signals = w.signals ++ [Signal.authenticationStateChanged c t] := by
  unfold setState
  rw [hg]
  simp only [if_neg hne]

theorem signals_setState (w : Wrapper) (c : String) (t : AuthenticationState) :
    (setState w c t).signals = w.signals
      ∨ (setState w c t).signals
          = w.signals ++ [Signal.authenticationStateChanged c t] := by
  unfold setState
  rcases hg : getSession w c with _ | s
  · exact Or.inl rfl
  · by_cases hst : s.state = t
    · simp only [hst, eq_self_iff_true, if_true]
      exact Or.inl trivial
    · simp only [if_neg hst]
      exact Or.inr trivial

theorem signals_setMethod (w : Wrapper) (c : String) (m : AuthenticationMethod) :
    (setMethod w c m).signals = w.signals
      ∨ (setMethod w c m).signals
          = w.signals ++ [Signal.authenticationMethodChanged c m] := by
  unfold setMethod
  rcases hg : getSession w c with _ | s
  · exact Or.inl rfl
  · by_cases hst : s.method = m
    · simp only [hst, eq_self_iff_true, if_true]
      exact Or.inl trivial
    · simp only [if_neg hst]
      exact Or.inr trivial

theorem signals_cancelFidoTimeout (w : Wrapper) (c : String) :
    (cancelFidoTimeout w c).signals = w.signals := by
  unfold cancelFidoTimeout
  rcases hg : getSession w c with _ | s
  · rfl
  · by_cases ht : s.fidoTimeoutTimer = true <;> simp [ht]

theorem getSession_cleanupClearPam (w : Wrapper) (c x : String) :
    getSession (cleanupClearPam w c) x
      = if x = c then ((getSession w x).map clearTimer).map clearPam
        else getSession w x := by
  show alookup (aupdate clearPam (cancelFidoTimeout w c).sessions c) x = _
  rw [alookup_aupdate]
  by_cases hx : x = c
  · subst hx
    simp only [if_pos rfl]
    rw [show alookup (cancelFidoTimeout w x).sessions x
        = getSession (cancelFidoTimeout w x) x from rfl, getSession_cancelFidoTimeout]
    simp
  · simp only [if_neg hx]
    rw [show alookup (cancelFidoTimeout w c).sessions x
        = getSession (cancelFidoTimeout w c) x from rfl, getSession_cancelFidoTimeout]
    simp [hx]

theorem signals_cleanupClearPam (w : Wrapper) (c : String) :
    (cleanupClearPam w c).signals = w.signals := by
  show (cancelFidoTimeout w c).signals = w.signals
  exact signals_cancelFidoTimeout w c

theorem getSession_cleanupFinishResult_ne (w : Wrapper) (c x : String) (hx : x ≠ c) :
    getSession (cleanupFinishResult w c) x = getSession w x := by
  unfold cleanupFinishResult
  rcases hg : getSession w c with _ | s
  · rfl
  · by_cases hr : s.result = true
    · simp only [hr, if_true]
      by_cases hc : s.state ≠ AuthenticationState.COMPLETED
      · simp only [if_pos hc]
        show alookup (aupdate clearResult (completeResultError w c).sessions c) x = _
        rw [alookup_aupdate]
        simp only [if_neg hx]
        rfl
      · simp only [if_neg hc]
        show alookup (aupdate clearResult w.sessions c) x = _
        rw [alookup_aupdate]
        simp only [if_neg hx]
        rfl
    · rw [Bool.not_eq_true] at hr
      simp only [hr, Bool.false_eq_true, if_false]

theorem retryAt_cleanupFinishResult (w : Wrapper) (c x : String) :
    retryAt (cleanupFinishResult w c) x = retryAt w x := by
  by_cases hx : x = c
  swap
  · unfold retryAt
    rw [getSession_cleanupFinishResult_ne _ _ _ hx]
  subst hx
  unfold cleanupFinishResult
  rcases hg : getSession w x with _ | s
  · rfl
  · by_cases hr : s.result = true
    · simp only [hr, if_true]
      by_cases hc : s.state ≠ AuthenticationState.COMPLETED
      · simp only [if_pos hc]
        unfold retryAt
        show (alookup (aupdate clearResult (completeResultError w x).sessions x) x).map _ = _
        rw [alookup_aupdate]
        simp only [eq_self_iff_true, if_true]
        rw [show alookup (completeResultError w x).sessions x = getSession w x from rfl, hg]
        rfl
      · simp only [if_neg hc]
        unfold retryAt
        show (alookup (aupdate clearResult w.sessions x) x).map _ = _
        rw [alookup_aupdate]
        simp only [eq_self_iff_true, if_true]
        rw [show alookup w.sessions x = getSession w x from rfl, hg]
        rfl
    · rw [Bool.not_eq_true] at hr
      simp only [hr, Bool.false_eq_true, if_false]

theorem signals_cleanupFinishResult (w : Wrapper) (c : String) :
    (cleanupFinishResult w c).signals = w.signals := by
  unfold cleanupFinishResult
  rcases hg : getSession w c with _ | s
  · rfl
  · by_cases hr : s.result = true
    · simp only [hr, if_true]
      by_cases hc : s.state ≠ AuthenticationState.COMPLETED
      · simp only [if_pos hc]
        rfl
      · simp only [if_neg hc]
    · rw [Bool.not_eq_true] at hr
      simp only [hr, Bool.false_eq_true, if_false]

theorem getSession_cleanupSession (w : Wrapper) (c x : String) :
    getSession (cleanupSession w c) x = if x = c then none else getSession w x := by
  unfold cleanupSession
  rcases hg : getSession w c with _ | s
  · by_cases hx : x = c
    · subst hx
      simp [hg]
    · simp [hx]
  · show alookup (aremove (cleanupFinishResult (cleanupClearPam w c) c).sessions c) x = _
    rw [alookup_aremove]
    by_cases hx : x = c
    · simp [hx]
    · simp only [if_neg hx]
      rw [show alookup (cleanupFinishResult (cleanupClearPam w c) c).sessions x
          = getSession (cleanupFinishResult (cleanupClearPam w c) c) x from rfl]
      rw [getSession_cleanupFinishResult_ne _ _ _ hx, getSession_cleanupClearPam]
      simp [hx]

theorem signals_cleanupSession (w : Wrapper) (c : String) :
    (cleanupSession w c).signals = w.signals := by
  unfold cleanupSession
  rcases hg : getSession w c with _ | s
  · rfl
  · show (cleanupFinishResult (cleanupClearPam w c) c).signals = w.signals
    rw [signals_cleanupFinishResult, signals_cleanupClearPam]

theorem retryAt_cleanupSession (w : Wrapper) (c x : String) :
    retryAt (cleanupSession w c) x = if x = c then none else retryAt w x := by
  unfold retryAt
  rw [getSession_cleanupSession]
  by_cases hx : x = c <;> simp [hx]

theorem retryAt_setState (w : Wrapper) (c : String) (t : AuthenticationState)
    (x : String) : retryAt (setState w c t) x = retryAt w x := by
  unfold retryAt
  rw [getSession_setState]
  by_cases hx : x = c
  · subst hx
    simp only [if_pos rfl]
    cases getSession w x <;> rfl
  · simp [hx]

theorem retryAt_setMethod (w : Wrapper) (c : String) (m : AuthenticationMethod)
    (x : String) : retryAt (setMethod w c m) x = retryAt w x := by
  unfold retryAt
  rw [getSession_setMethod]
  by_cases hx : x = c
  · subst hx
    simp only [if_pos rfl]
    cases getSession w x <;> rfl
  · simp [hx]

theorem retryAt_cancelFidoTimeout (w : Wrapper) (c x : String) :
    retryAt (cancelFidoTimeout w c) x = retryAt w x := by
  unfold retryAt
  rw [getSession_cancelFidoTimeout]
  by_cases hx : x = c
  · subst hx
    simp only [if_pos rfl]
    cases getSession w x <;> rfl
  · simp [hx]

theorem retryAt_cleanupClearPam (w : Wrapper) (c x : String) :
    retryAt (cleanupClearPam w c) x = retryAt w x := by
  unfold retryAt
  rw [getSession_cleanupClearPam]
  by_cases hx : x = c
  · subst hx
    simp only [if_pos rfl]
    cases getSession w x <;> rfl
  · simp [hx]

theorem retryAt_aupdate (w : Wrapper) (f : SessionState → SessionState)
    (hf : ∀ s, (f s).retryCount = s.retryCount) (c x : String) :
    retryAt { w with sessions := aupdate f w.sessions c } x = retryAt w x := by
  show (alookup (aupdate f w.sessions c) x).map SessionState.retryCount
    = (alookup w.sessions x).map SessionState.retryCount
  rw [alookup_aupdate]
  by_cases hx : x = c
  · subst hx
    simp only [eq_self_iff_true, if_true]
    rcases hgw : alookup w.sessions x with _ | s
    · rfl
    · show some ((f s).retryCount) = some s.retryCount
      rw [hf]
  · simp [hx]

theorem retryAt_startFidoTimeout (w : Wrapper) (c x : String) :
    retryAt (startFidoTimeout w c) x = retryAt w x := by
  unfold startFidoTimeout
  rcases hg : getSession w c with _ | s
  · rfl
  · exact retryAt_aupdate w armTimer (fun s => rfl) c x

theorem signals_completedFinishResult (w : Wrapper) (c : String) (g : Bool) :
    (completedFinishResult w c g).signals = w.signals := by
  unfold completedFinishResult
  rcases hg : getSession w c with _ | s
  · rfl
  · by_cases hr : s.result = true
    · simp only [hr, if_true]
      cases g <;> rfl
    · rw [Bool.not_eq_true] at hr
      simp only [hr, Bool.false_eq_true, if_false]

theorem retryAt_completedFinishResult (w : Wrapper) (c : String) (g : Bool) (x : String) :
    retryAt (completedFinishResult w c g) x = retryAt w x := by
  unfold completedFinishResult
  rcases hg : getSession w c with _ | s
  · rfl
  · by_cases hr : s.result = true
    · simp only [hr, if_true]
      cases g <;> rfl
    · rw [Bool.not_eq_true] at hr
      simp only [hr, Bool.false_eq_true, if_false]

theorem retryAt_completedUpdateState_ne (w : Wrapper) (c : String) (g : Bool)
    (x : String) (hx : x ≠ c) :
    retryAt (completedUpdateState w c g) x = retryAt w x := by
  unfold completedUpdateState
  cases g
  · simp only [Bool.false_eq_true, if_false]
    rcases hg : getSession w c with _ | s
    · rfl
    · simp only []
      by_cases hmax : s.retryCount + 1 ≥ MAX_AUTH_RETRIES
      · simp only [if_pos hmax]
        show retryAt { setState
            ({ w with sessions := aset w.sessions c _ } : Wrapper) c
            AuthenticationState.MAX_RETRIES_EXCEEDED with signals := _ } x = _
        rw [show ∀ (ww : Wrapper) (sig : List Signal),
            retryAt { ww with signals := sig } x = retryAt ww x from fun _ _ => rfl]
        rw [retryAt_setState]
        show (alookup (aset w.sessions c _) x).map _ = _
        rw [alookup_aset]
        simp only [if_neg hx]
        rfl
      · simp only [if_neg hmax]
        show retryAt { setState
            ({ w with sessions := aset w.sessions c _ } : Wrapper) c
            AuthenticationState.AUTHENTICATION_FAILED with signals := _ } x = _
        rw [show ∀ (ww : Wrapper) (sig : List Signal),
            retryAt { ww with signals := sig } x = retryAt ww x from fun _ _ => rfl]
        rw [retryAt_setState]
        show (alookup (aset w.sessions c _) x).map _ = _
        rw [alookup_aset]
        simp only [if_neg hx]
        rfl
  · simp only [if_true]
    exact retryAt_setState w c AuthenticationState.COMPLETED x

theorem retryAt_onSessionCompleted (w : Wrapper) (c a : String) (g : Bool) (x : String) :
    retryAt (onSessionCompleted w c a g) x = if x = c then none else retryAt w x := by
  unfold onSessionCompleted
  rw [retryAt_cleanupSession]
  by_cases hx : x = c
  · simp [hx]
  · simp only [if_neg hx]
    rw [show ∀ (ww : Wrapper) (sig : List Signal),
        retryAt { ww with signals := sig } x = retryAt ww x from fun _ _ => rfl]
    rw [retryAt_completedFinishResult, retryAt_completedUpdateState_ne _ _ _ _ hx,
      retryAt_cancelFidoTimeout]

theorem retryAt_onSessionRequest (w : Wrapper) (c a r : String) (e : Bool) (x : String) :
    retryAt (onSessionRequest w c a r e) x = retryAt w x := by
  unfold onSessionRequest
  rcases hg : getSession w c with _ | s
  · rfl
  · by_cases hp : s.session.isNone = true
    · simp only [hp, if_true]
    · simp only [hp, Bool.false_eq_true, if_false]
      by_cases hmax : s.state = AuthenticationState.MAX_RETRIES_EXCEEDED
      · simp only [hmax, eq_self_iff_true, if_true]
      · simp only [if_neg hmax]
        by_cases hnfc : (w.nfcReaderPresent && !s.nfcAttempted) = true
        · simp only [hnfc, if_true]
          rw [retryAt_aupdate _ (pamAppendResponse "") (fun s => rfl),
            retryAt_startFidoTimeout,
            retryAt_aupdate _ setNfcAttempted (fun s => rfl),
            retryAt_setMethod, retryAt_setState]
        · rw [Bool.not_eq_true] at hnfc
          simp only [hnfc, Bool.false_eq_true, if_false]
          rw [show ∀ (ww : Wrapper) (sig : List Signal),
              retryAt { ww with signals := sig } x = retryAt ww x from fun _ _ => rfl]
          rw [retryAt_setMethod, retryAt_setState]
          by_cases hatt : s.nfcAttempted = true
          · simp only [hatt, if_true]
            rw [show ∀ (ww : Wrapper) (sig : List Signal),
                retryAt { ww with signals := sig } x = retryAt ww x from fun _ _ => rfl]
            rw [retryAt_setState, retryAt_cancelFidoTimeout]
          · rw [Bool.not_eq_true] at hatt
            simp only [hatt, Bool.false_eq_true, if_false]

theorem retryAt_submitAuthenticationResponse (w : Wrapper) (c resp : String) (x : String) :
    retryAt (submitAuthenticationResponse w c resp) x = retryAt w x := by
  unfold submitAuthenticationResponse
  rcases hg : getSession w c with _ | s
  · rfl
  · by_cases hp : s.session.isNone = true
    · simp only [hp, if_true]
    · simp only [hp, Bool.false_eq_true, if_false]
      by_cases hmax : s.state = AuthenticationState.MAX_RETRIES_EXCEEDED
      · simp only [hmax, eq_self_iff_true, if_true]
        rfl
      · simp only [if_neg hmax]
        rw [retryAt_aupdate _ (pamAppendResponse resp) (fun s => rfl),
          retryAt_setMethod, retryAt_setState]

theorem retryAt_onSessionShowError (w : Wrapper) (c a t : String) (x : String) :
    retryAt (onSessionShowError w c a t) x = if x = c then none else retryAt w x := by
  unfold onSessionShowError
  rw [retryAt_cleanupSession]
  by_cases hx : x = c
  · simp [hx]
  · simp only [if_neg hx]
    rw [show ∀ (ww : Wrapper) (sig : List Signal),
        retryAt { ww with signals := sig } x = retryAt ww x from fun _ _ => rfl]
    rcases hg : getSession (setState w c AuthenticationState.ERROR) c with _ | s
    · rw [retryAt_setState]
    · by_cases hr : s.result = true
      · simp only [hr, if_true]
        rw [show ∀ (ww : Wrapper), retryAt (completeResultError ww c) x
            = retryAt ww x from fun _ => rfl]
        rw [show ∀ (ww : Wrapper) (sig : List Signal),
            retryAt { ww with signals := sig } x = retryAt ww x from fun _ _ => rfl]
        rw [retryAt_setState]
      · rw [Bool.not_eq_true] at hr
        simp only [hr, Bool.false_eq_true, if_false]
        rw [show ∀ (ww : Wrapper) (sig : List Signal),
            retryAt { ww with signals := sig } x = retryAt ww x from fun _ _ => rfl]
        rw [retryAt_setState]

theorem retryAt_onFidoTimeout (w : Wrapper) (c x : String) :
    retryAt (onFidoTimeout w c) x = retryAt w x := by
  unfold onFidoTimeout
  rcases hg : getSession w c with _ | s
  · rfl
  · by_cases ht : s.fidoTimeoutTimer = true
    · simp only [ht, if_true]
      by_cases hs : s.state ≠ AuthenticationState.TRYING_FIDO
      · simp only [if_pos hs]
        exact retryAt_aupdate w clearTimer (fun s => rfl) c x
      · simp only [if_neg hs]
        rw [show ∀ (ww : Wrapper) (sig : List Signal),
            retryAt { ww with signals := sig } x = retryAt ww x from fun _ _ => rfl]
        rw [retryAt_setState]
        exact retryAt_aupdate w clearTimer (fun s => rfl) c x
    · rw [Bool.not_eq_true] at ht
      simp only [ht, Bool.false_eq_true, if_false]
      by_cases hs : s.state ≠ AuthenticationState.TRYING_FIDO
      · simp only [if_pos hs]
      · simp only [if_neg hs]
        rw [show ∀ (ww : Wrapper) (sig : List Signal),
            retryAt { ww with signals := sig } x = retryAt ww x from fun _ _ => rfl]
        rw [retryAt_setState]

theorem retryAt_initiateRegister (w : Wrapper) (a c : String) (hr nd : Bool)
    (x : String) :
    retryAt (initiateRegister w a c hr nd) x = if x = c then some 0 else retryAt w x := by
  show (alookup (aset w.sessions c _) x).map _ = _
  rw [alookup_aset]
  by_cases hx : x = c
  · subst hx
    simp only [eq_self_iff_true, if_true]
    rfl
  · simp only [if_neg hx]
    rfl

theorem retryAt_initiateAuthentication (w : Wrapper) (a m i c : String)
    (hi hr nd : Bool) (x : String) :
    retryAt (initiateAuthentication w a m i c hi hr nd) x
      = if x = c then some 0 else retryAt w x := by
  unfold initiateAuthentication
  rw [show ∀ (ww : Wrapper) (sig : List Signal),
      retryAt { ww with signals := sig } x = retryAt ww x from fun _ _ => rfl]
  cases hi
  · simp only [Bool.false_eq_true, if_false]
    rw [retryAt_setState, retryAt_initiateRegister]
  · simp only [if_true]
    rw [retryAt_aupdate _ attachPam (fun s => rfl), retryAt_setState,
      retryAt_initiateRegister]

theorem retryAt_cancelAuthentication (w : Wrapper) (x : String) :
    retryAt (cancelAuthentication w) x = retryAt w x
      ∨ retryAt (cancelAuthentication w) x = none := by
  unfold cancelAuthentication
  generalize (w.sessions.map Prod.fst) = ks
  induction ks generalizing w with
  | nil => exact Or.inl rfl
  | cons k ks ih =>
    simp only [List.foldl_cons]
    rcases ih (cleanupSession (setState w k AuthenticationState.CANCELLED) k) with h | h
    · rw [h, retryAt_cleanupSession]
      by_cases hk : x = k
      · simp [hk]
      · simp only [if_neg hk]
        rw [retryAt_setState]
        exact Or.inl rfl
    · exact Or.inr h

theorem retryAt_step (w : Wrapper) (ev : WrapperEvent) (c : String) :
    retryAt (step w ev) c = retryAt w c
      ∨ retryAt (step w ev) c = none
      ∨ (ev.isInitiateFor c = true ∧ retryAt (step w ev) c = some 0) := by
  cases ev with
  | initiate a m i c0 hi hr nd =>
    rw [show step w (WrapperEvent.initiate a m i c0 hi hr nd)
        = initiateAuthentication w a m i c0 hi hr nd from rfl,
      retryAt_initiateAuthentication]
    by_cases hc : c = c0
    · subst hc
      refine Or.inr (Or.inr ⟨?_, by simp⟩)
      show decide (c = c) = true
      simp
    · simp only [if_neg hc]
      exact Or.inl trivial
  | completed c0 a g =>
    rw [show step w (WrapperEvent.completed c0 a g) = onSessionCompleted w c0 a g from rfl,
      retryAt_onSessionCompleted]
    by_cases hc : c = c0
    · simp [hc]
    · simp only [if_neg hc]
      exact Or.inl trivial
  | request c0 a r e =>
    exact Or.inl (retryAt_onSessionRequest w c0 a r e c)
  | showErrorEv c0 a t =>
    rw [show step w (WrapperEvent.showErrorEv c0 a t) = onSessionShowError w c0 a t from rfl,
      retryAt_onSessionShowError]
    by_cases hc : c = c0
    · simp [hc]
    · simp only [if_neg hc]
      exact Or.inl trivial
  | submit c0 resp =>
    exact Or.inl (retryAt_submitAuthenticationResponse w c0 resp c)
  | fidoTimeout c0 =>
    exact Or.inl (retryAt_onFidoTimeout w c0 c)
  | cancelAll =>
    rcases retryAt_cancelAuthentication w c with h | h
    · exact Or.inl h
    · exact Or.inr (Or.inl h)

theorem completed_failure_lockout_signal (w : Wrapper) (c a : String) (s : SessionState)
    (hg : getSession w c = some s) (hmax : s.retryCount + 1 ≥ MAX_AUTH_RETRIES) :
    (Signal.authenticationError c AuthenticationState.MAX_RETRIES_EXCEEDED s.method
        (getDefaultErrorMessage AuthenticationState.MAX_RETRIES_EXCEEDED s.method)
        ("Retry count: " ++ toString (s.retryCount + 1) ++ "/"
          ++ toString MAX_AUTH_RETRIES))
      ∈ (onSessionCompleted w c a false).signals := by
  unfold onSessionCompleted
  rw [signals_cleanupSession]
  show _ ∈ (completedFinishResult
      (completedUpdateState (cancelFidoTimeout w c) c false) c false).signals ++ _
  rw [signals_completedFinishResult]
  have hg1 : getSession (cancelFidoTimeout w c) c = some (clearTimer s) := by
    rw [getSession_cancelFidoTimeout]
    simp [hg]
  unfold completedUpdateState
  rw [hg1]
  simp only [Bool.false_eq_true, if_false]
  split
  · refine List.mem_append_left _ ?_
    exact List.mem_append_right _ (List.mem_singleton_self _)
  · next hcontra =>
    exact absurd hmax hcontra

theorem submit_rejected_after_lockout (w : Wrapper) (c resp : String) (s : SessionState)
    (hg : getSession w c = some s) (hp : s.session.isSome = true)
    (hmax : s.state = AuthenticationState.MAX_RETRIES_EXCEEDED) :
    submitAuthenticationResponse w c resp
      = { w with signals := w.signals
          ++ [Signal.authenticationError c AuthenticationState.MAX_RETRIES_EXCEEDED
                s.method
                (getDefaultErrorMessage AuthenticationState.MAX_RETRIES_EXCEEDED s.method)
                "User attempted to submit response after max retries",
              Signal.authorizationError
                (getDefaultErrorMessage AuthenticationState.MAX_RETRIES_EXCEEDED
                  s.method)] } := by
  unfold submitAuthenticationResponse
  rw [hg]
  have hp' : s.session.isNone = false := by
    rcases hs : s.session with _ | p
    · rw [hs] at hp
      simp at hp
    · rfl
  simp only [hp', Bool.false_eq_true, if_false, hmax, eq_self_iff_true, if_true]

end PolkitWrapper

/-- Claim C2: for every session, retryCount is non-decreasing over the
session's life and never exceeds `MAX_AUTH_RETRIES` (3); when the counter
reaches the bound the session state becomes `MAX_RETRIES_EXCEEDED` (with the
lockout error emitted), and a `submitAuthenticationResponse` call for a cookie
whose session is already `MAX_RETRIES_EXCEEDED` is rejected with no session
change and explicit error signals.  Conjuncts: (1) no event other than a fresh
`initiateAuthentication` for the same cookie ever decreases a session's
visible retryCount; (2) every event preserves the bound
`retryCount ≤ MAX_AUTH_RETRIES` over all sessions; (3) a `completed(false)`
callback whose incremented count reaches the bound emits the
`MAX_RETRIES_EXCEEDED` error signal; (4) the lockout rejection. -/
theorem C2_retry_monotone_bounded_lockout :
    (∀ (w : PolkitWrapper.Wrapper) (ev : PolkitWrapper.WrapperEvent) (c : String)
        (s s' : PolkitWrapper.SessionState),
      ev.isInitiateFor c = false →
      PolkitWrapper.getSession w c = some s →
      PolkitWrapper.getSession (PolkitWrapper.step w ev) c = some s' →
      s.retryCount ≤ s'.retryCount)
    ∧ (∀ (w : PolkitWrapper.Wrapper) (ev : PolkitWrapper.WrapperEvent),
      (∀ c s, PolkitWrapper.getSession w c = some s →
        s.retryCount ≤ PolkitWrapper.MAX_AUTH_RETRIES) →
      (∀ c s', PolkitWrapper.getSession (PolkitWrapper.step w ev) c = some s' →
        s'.retryCount ≤ PolkitWrapper.MAX_AUTH_RETRIES))
    ∧ (∀ (w : PolkitWrapper.Wrapper) (c a : String) (s : PolkitWrapper.SessionState),
      PolkitWrapper.getSession w c = some s →
      s.retryCount + 1 ≥ PolkitWrapper.MAX_AUTH_RETRIES →
      (PolkitWrapper.Signal.authenticationError c
          AuthenticationState.MAX_RETRIES_EXCEEDED s.method
          (PolkitWrapper.getDefaultErrorMessage
            AuthenticationState.MAX_RETRIES_EXCEEDED s.method)
          ("Retry count: " ++ toString (s.retryCount + 1) ++ "/"
            ++ toString PolkitWrapper.MAX_AUTH_RETRIES))
        ∈ (PolkitWrapper.onSessionCompleted w c a false).signals)
    ∧ (∀ (w : PolkitWrapper.Wrapper) (c resp : String) (s : PolkitWrapper.SessionState),
      PolkitWrapper.getSession w c = some s →
      s.session.isSome = true →
      s.state = AuthenticationState.MAX_RETRIES_EXCEEDED →
      (PolkitWrapper.submitAuthenticationResponse w c resp).sessions = w.sessions
      ∧ (PolkitWrapper.submitAuthenticationResponse w c resp).signals
          = w.signals
            ++ [PolkitWrapper.Signal.authenticationError c
                  AuthenticationState.MAX_RETRIES_EXCEEDED s.method
                  (PolkitWrapper.getDefaultErrorMessage
                    AuthenticationState.MAX_RETRIES_EXCEEDED s.method)
                  "User attempted to submit response after max retries",
                PolkitWrapper.Signal.authorizationError
                  (PolkitWrapper.getDefaultErrorMessage
                    AuthenticationState.MAX_RETRIES_EXCEEDED s.method)]) := by
  refine ⟨?_, ?_, ?_, ?_⟩
  · intro w ev c s s' hev hs hs'
    have hr : PolkitWrapper.retryAt w c = some s.retryCount := by
      unfold PolkitWrapper.retryAt
      rw [hs]
      rfl
    have hr' : PolkitWrapper.retryAt (PolkitWrapper.step w ev) c
        = some s'.retryCount := by
      unfold PolkitWrapper.retryAt
      rw [hs']
      rfl
    rcases PolkitWrapper.retryAt_step w ev c with hk | hk | hk
    · rw [hr', hr] at hk
      exact Nat.le_of_eq (Option.some.inj hk).symm
    · rw [hr'] at hk
      exact absurd hk (Option.some_ne_none _)
    · rw [hev] at hk
      exact absurd hk.1 (by simp)
  · intro w ev hbound c s' hs'
    have hr' : PolkitWrapper.retryAt (PolkitWrapper.step w ev) c
        = some s'.retryCount := by
      unfold PolkitWrapper.retryAt
      rw [hs']
      rfl
    rcases PolkitWrapper.retryAt_step w ev c with hk | hk | hk
    · rw [hr'] at hk
      rcases hgw : PolkitWrapper.getSession w c with _ | s
      · rw [show PolkitWrapper.retryAt w c = none from by
          unfold PolkitWrapper.retryAt; rw [hgw]; rfl] at hk
        exact absurd hk (Option.some_ne_none _)
      · rw [show PolkitWrapper.retryAt w c = some s.retryCount from by
          unfold PolkitWrapper.retryAt; rw [hgw]; rfl] at hk
        rw [Option.some.inj hk]
        exact hbound c s hgw
    · rw [hr'] at hk
      exact absurd hk (Option.some_ne_none _)
    · obtain ⟨hk1, hk2⟩ := hk
      rw [hr'] at hk2
      rw [Option.some.inj hk2]
      exact Nat.zero_le _
  · intro w c a s hg hmax
    exact PolkitWrapper.completed_failure_lockout_signal w c a s hg hmax
  · intro w c resp s hg hp hmax
    rw [PolkitWrapper.submit_rejected_after_lockout w c resp s hg hp hmax]
    exact ⟨rfl, rfl⟩

/-- A session already locked out (`MAX_RETRIES_EXCEEDED`, two failures
recorded), used to witness the retry-policy theorem. -/
def lockedSession : PolkitWrapper.SessionState :=
  { state := AuthenticationState.MAX_RETRIES_EXCEEDED,
    method := AuthenticationMethod.PASSWORD, cookie := "cookie-z",
    actionId := "org.example.z", retryCount := 2, nfcAttempted := false,
    result := false, session := some {}, fidoTimeoutTimer := false }

def lockedWrapper : PolkitWrapper.Wrapper :=
  { sessions := [("cookie-z", lockedSession)] }

theorem C2_witness :
    lockedSession.retryCount ≤ lockedSession.retryCount
    ∧ (∀ c s', PolkitWrapper.getSession
        (PolkitWrapper.step lockedWrapper
          (PolkitWrapper.WrapperEvent.fidoTimeout "cookie-z")) c = some s' →
      s'.retryCount ≤ PolkitWrapper.MAX_AUTH_RETRIES)
    ∧ (PolkitWrapper.Signal.authenticationError "cookie-z"
        AuthenticationState.MAX_RETRIES_EXCEEDED lockedSession.method
        (PolkitWrapper.getDefaultErrorMessage
          AuthenticationState.MAX_RETRIES_EXCEEDED lockedSession.method)
        ("Retry count: " ++ toString (lockedSession.retryCount + 1) ++ "/"
          ++ toString PolkitWrapper.MAX_AUTH_RETRIES))
      ∈ (PolkitWrapper.onSessionCompleted lockedWrapper "cookie-z" "org.example.z"
          false).signals
    ∧ (PolkitWrapper.submitAuthenticationResponse lockedWrapper "cookie-z"
        "pw").sessions = lockedWrapper.sessions := by
  refine ⟨?_, ?_, ?_, ?_⟩
  · exact C2_retry_monotone_bounded_lockout.1 lockedWrapper
      (PolkitWrapper.WrapperEvent.fidoTimeout "cookie-z") "cookie-z"
      lockedSession lockedSession (by decide) (by decide) (by decide)
  · exact C2_retry_monotone_bounded_lockout.2.1 lockedWrapper
      (PolkitWrapper.WrapperEvent.fidoTimeout "cookie-z")
      (by
        intro c s h
        show s.retryCount ≤ 3
        by_cases hc : c = "cookie-z"
        · subst hc
          have : s = lockedSession := by
            have h2 := h
            unfold PolkitWrapper.getSession lockedWrapper alookup at h2
            simpa using h2.symm
          rw [this]
          decide
        · exfalso
          unfold PolkitWrapper.getSession lockedWrapper alookup at h
          rw [if_neg hc] at h
          exact absurd h (by simp [alookup]))
  · exact C2_retry_monotone_bounded_lockout.2.2.1 lockedWrapper "cookie-z"
      "org.example.z" lockedSession (by decide) (by decide)
  · exact (C2_retry_monotone_bounded_lockout.2.2.2 lockedWrapper "cookie-z" "pw"
      lockedSession (by decide) (by decide) (by decide)).1

namespace PolkitWrapper

theorem stateAt_aupdate (w : Wrapper) (f : SessionState → SessionState)
    (hf : ∀ s, (f s).state = s.state) (c x : String) :
    stateAt { w with sessions := aupdate f w.sessions c } x = stateAt w x := by
  show (alookup (aupdate f w.sessions c) x).map SessionState.state
    = (alookup w.sessions x).map SessionState.state
  rw [alookup_aupdate]
  by_cases hx : x = c
  · subst hx
    simp only [eq_self_iff_true, if_true]
    rcases hgw : alookup w.sessions x with _ | s
    · rfl
    · show some ((f s).state) = some s.state
      rw [hf]
  · simp [hx]

theorem stateAt_setState_self (w : Wrapper) (c : String) (t : AuthenticationState)
    (s : SessionState) (hg : getSession w c = some s) :
    stateAt (setState w c t) c = some t := by
  unfold setState
  rw [hg]
  by_cases hst : s.state = t
  · simp only [if_pos hst]
    show (getSession w c).map SessionState.state = some t
    rw [hg]
    exact congrArg some hst
  · simp only [if_neg hst]
    show (alookup (aupdate (fun s => { s with state := t }) w.sessions c) c).map
        SessionState.state = some t
    rw [alookup_aupdate]
    simp only [eq_self_iff_true, if_true]
    rw [show alookup w.sessions c = some s from hg]
    rfl

end PolkitWrapper

/-- Claim C6: the FIDO fallback timer callback is guarded by the session's
current state.  (1) If the session is gone, firing the timer changes nothing
at all.  (2) If the session still exists but has advanced past `TRYING_FIDO`,
firing the timer changes no session's visible state and emits no signal (it
only disarms the stale timer object).  (3) Only when the session still exists
and is still `TRYING_FIDO` does the session transition to `FIDO_FAILED`, with
the method-failed notification emitted. -/
theorem C6_fido_timer_guarded_by_state :
    (∀ (w : PolkitWrapper.Wrapper) (c : String),
      PolkitWrapper.getSession w c = none →
      PolkitWrapper.onFidoTimeout w c = w)
    ∧ (∀ (w : PolkitWrapper.Wrapper) (c : String) (s : PolkitWrapper.SessionState),
      PolkitWrapper.getSession w c = some s →
      s.state ≠ AuthenticationState.TRYING_FIDO →
      (∀ x, PolkitWrapper.stateAt (PolkitWrapper.onFidoTimeout w c) x
          = PolkitWrapper.stateAt w x)
      ∧ (PolkitWrapper.onFidoTimeout w c).signals = w.signals)
    ∧ (∀ (w : PolkitWrapper.Wrapper) (c : String) (s : PolkitWrapper.SessionState),
      PolkitWrapper.getSession w c = some s →
      s.state = AuthenticationState.TRYING_FIDO →
      PolkitWrapper.stateAt (PolkitWrapper.onFidoTimeout w c) c
        = some AuthenticationState.FIDO_FAILED
      ∧ PolkitWrapper.Signal.authenticationMethodFailed c AuthenticationMethod.FIDO
          "Security key timeout - no response within 15 seconds"
        ∈ (PolkitWrapper.onFidoTimeout w c).signals) := by
  have hsig : ∀ (ww : PolkitWrapper.Wrapper) (sig : List PolkitWrapper.Signal)
      (x : String),
      PolkitWrapper.stateAt { ww with signals := sig } x
        = PolkitWrapper.stateAt ww x := fun _ _ _ => rfl
  refine ⟨?_, ?_, ?_⟩
  · intro w c h
    unfold PolkitWrapper.onFidoTimeout
    rw [h]
  · intro w c s hg hs
    unfold PolkitWrapper.onFidoTimeout
    rw [hg]
    simp only [if_pos hs]
    by_cases ht : s.fidoTimeoutTimer = true
    · simp only [ht, if_true]
      exact ⟨fun x =>
        PolkitWrapper.stateAt_aupdate w PolkitWrapper.clearTimer (fun s => rfl) c x,
        trivial⟩
    · rw [Bool.not_eq_true] at ht
      simp only [ht, Bool.false_eq_true, if_false]
      exact ⟨fun x => trivial, trivial⟩
  · intro w c s hg hs
    have hs' : ¬(s.state ≠ AuthenticationState.TRYING_FIDO) := fun h => h hs
    unfold PolkitWrapper.onFidoTimeout
    rw [hg]
    by_cases ht : s.fidoTimeoutTimer = true
    · simp only [ht, if_true, if_neg hs']
      constructor
      · rw [hsig]
        have hg1 : PolkitWrapper.getSession
            { w with sessions := aupdate PolkitWrapper.clearTimer w.sessions c } c
            = some (PolkitWrapper.clearTimer s) := by
          show alookup (aupdate PolkitWrapper.clearTimer w.sessions c) c
            = some (PolkitWrapper.clearTimer s)
          rw [alookup_aupdate]
          simp only [eq_self_iff_true, if_true]
          rw [show alookup w.sessions c = some s from hg]
          rfl
        exact PolkitWrapper.stateAt_setState_self _ c _ (PolkitWrapper.clearTimer s) hg1
      · simp
    · rw [Bool.not_eq_true] at ht
      simp only [ht, Bool.false_eq_true, if_false, if_neg hs']
      constructor
      · rw [hsig]
        exact PolkitWrapper.stateAt_setState_self w c _ s hg
      · simp

/-- The session stored under "cookie-c" after the wrapper auto-attempted FIDO
(`fidoTrace2`). -/
def fidoSession2 : PolkitWrapper.SessionState :=
  { state := AuthenticationState.TRYING_FIDO, method := AuthenticationMethod.FIDO,
    cookie := "cookie-c", actionId := "org.example.fido", retryCount := 0,
    nfcAttempted := true, result := true,
    session := some { initiated := true, cancelled := false, responses := [""] },
    fidoTimeoutTimer := true }

/-- The session stored under "cookie-c" after the user typed a password during
the FIDO attempt (`fidoTrace3`). -/
def fidoSession3 : PolkitWrapper.SessionState :=
  { state := AuthenticationState.AUTHENTICATING,
    method := AuthenticationMethod.PASSWORD,
    cookie := "cookie-c", actionId := "org.example.fido", retryCount := 0,
    nfcAttempted := true, result := true,
    session := some { initiated := true, cancelled := false,
                      responses := ["", "hunter2"] },
    fidoTimeoutTimer := true }

theorem C6_witness :
    PolkitWrapper.onFidoTimeout fidoTrace2 "missing" = fidoTrace2
    ∧ (PolkitWrapper.onFidoTimeout fidoTrace3 "cookie-c").signals
        = fidoTrace3.signals
    ∧ PolkitWrapper.stateAt (PolkitWrapper.onFidoTimeout fidoTrace2 "cookie-c")
        "cookie-c" = some AuthenticationState.FIDO_FAILED := by
  refine ⟨?_, ?_, ?_⟩
  · exact C6_fido_timer_guarded_by_state.1 fidoTrace2 "missing" (by decide)
  · exact (C6_fido_timer_guarded_by_state.2.1 fidoTrace3 "cookie-c" fidoSession3
      (by decide) (by decide)).2
  · exact (C6_fido_timer_guarded_by_state.2.2 fidoTrace2 "cookie-c" fidoSession2
      (by decide) (by decide)).1

/-- Claim C5, amended: submitting a response while a session is `TRYING_FIDO`
(with a live backend conversation) sets `method = PASSWORD`, transitions the
session to `AUTHENTICATING` — so it never stays in `TRYING_FIDO` — and appends
the response for the backend; but the pending FIDO fallback timer is NOT
cancelled: the `fidoTimeoutTimer` field is inherited unchanged from the
pre-submit session. -/
theorem C5_amended_submit_during_fido (w : PolkitWrapper.Wrapper)
    (c resp : String) (s : PolkitWrapper.SessionState)
    (p : PolkitWrapper.PamSessionState)
    (hg : PolkitWrapper.getSession w c = some s)
    (hp : s.session = some p)
    (hs : s.state = AuthenticationState.TRYING_FIDO) :
    PolkitWrapper.getSession
        (PolkitWrapper.submitAuthenticationResponse w c resp) c
      = some { s with
          state := AuthenticationState.AUTHENTICATING,
          method := AuthenticationMethod.PASSWORD,
          session := some { p with responses := p.responses ++ [resp] } } := by
  have hnone : s.session.isNone = false := by rw [hp]; rfl
  have hmax : ¬(s.state = AuthenticationState.MAX_RETRIES_EXCEEDED) := by
    rw [hs]; decide
  unfold PolkitWrapper.submitAuthenticationResponse
  rw [hg]
  simp only [hnone, Bool.false_eq_true, if_false, if_neg hmax]
  have h1 : PolkitWrapper.getSession
      (PolkitWrapper.setState w c AuthenticationState.AUTHENTICATING) c
      = some { s with state := AuthenticationState.AUTHENTICATING } := by
    rw [PolkitWrapper.getSession_setState]
    simp only [eq_self_iff_true, if_true]
    rw [hg]
    rfl
  have h2 : PolkitWrapper.getSession
      (PolkitWrapper.setMethod
        (PolkitWrapper.setState w c AuthenticationState.AUTHENTICATING) c
        AuthenticationMethod.PASSWORD) c
      = some { s with state := AuthenticationState.AUTHENTICATING,
                      method := AuthenticationMethod.PASSWORD } := by
    rw [PolkitWrapper.getSession_setMethod]
    simp only [eq_self_iff_true, if_true]
    rw [h1]
    rfl
  show (alookup (aupdate (PolkitWrapper.pamAppendResponse resp) _ c) c)
      = some _
  rw [alookup_aupdate]
  simp only [eq_self_iff_true, if_true]
  rw [show (alookup (PolkitWrapper.setMethod
      (PolkitWrapper.setState w c AuthenticationState.AUTHENTICATING) c
      AuthenticationMethod.PASSWORD).sessions c)
    = some { s with state := AuthenticationState.AUTHENTICATING,
                    method := AuthenticationMethod.PASSWORD } from h2]
  simp only [Option.map_some, PolkitWrapper.pamAppendResponse, hp]
  rfl

theorem C5_amended_witness :
    PolkitWrapper.getSession
        (PolkitWrapper.submitAuthenticationResponse fidoTrace2 "cookie-c"
          "hunter2") "cookie-c"
      = some { fidoSession2 with
          state := AuthenticationState.AUTHENTICATING,
          method := AuthenticationMethod.PASSWORD,
          session := some { initiated := true, cancelled := false,
                            responses := ["", "hunter2"] } } :=
  C5_amended_submit_during_fido fidoTrace2 "cookie-c" "hunter2" fidoSession2
    { initiated := true, cancelled := false, responses := [""] }
    (by decide) (by decide) (by decide)

theorem jremove_comm {j : Json} {k1 k2 : String} (hwf : JsonWF j) :
    jremove (jremove j k1) k2 = jremove (jremove j k2) k1 := by
  refine jext (jremove_wf (jremove_wf hwf)) (jremove_wf (jremove_wf hwf)) (fun x => ?_)
  by_cases h1 : x = k1 <;> by_cases h2 : x = k2 <;>
    simp [jget_jremove, h1, h2]

namespace SecurityManager

theorem verify_false_of_missing (mac : Json → String) (now : Int) (msg : Json)
    (h : jcontains msg "hmac" = false ∨ jcontains msg "timestamp" = false) :
    verifyMessage mac now msg = false := by
  unfold verifyMessage
  rcases h with h | h <;> simp [h]

theorem verify_false_of_hash_mismatch (mac : Json → String) (now : Int) (msg : Json)
    (hneq : mac (jremove msg "hmac") ≠ jgetStr msg "hmac") :
    verifyMessage mac now msg = false := by
  unfold verifyMessage
  by_cases h1 : jcontains msg "hmac" = true
  · by_cases h2 : jcontains msg "timestamp" = true
    · simp [h1, h2, hneq]
    · simp [Bool.not_eq_true] at h2
      simp [h2]
  · simp [Bool.not_eq_true] at h1
    simp [h1]

theorem verify_true_iff_window (mac : Json → String) (now : Int) (msg : Json)
    (h1 : jcontains msg "hmac" = true) (h2 : jcontains msg "timestamp" = true)
    (h3 : mac (jremove msg "hmac") = jgetStr msg "hmac") :
    verifyMessage mac now msg = true
      ↔ now - jgetNum msg "timestamp" ≤ MAX_TIME_SKEW_MS
        ∧ -MAX_TIME_SKEW_MS ≤ now - jgetNum msg "timestamp" := by
  unfold verifyMessage
  simp only [h1, h2, h3, Bool.not_true, Bool.false_or, Bool.or_false,
    if_false, Bool.not_eq_true]
  constructor
  · intro h
    by_cases hw : now - jgetNum msg "timestamp" > MAX_TIME_SKEW_MS
        ∨ now - jgetNum msg "timestamp" < -MAX_TIME_SKEW_MS
    · simp [hw] at h
    · push_neg at hw
      omega
  · intro h
    have hw : ¬(now - jgetNum msg "timestamp" > MAX_TIME_SKEW_MS
        ∨ now - jgetNum msg "timestamp" < -MAX_TIME_SKEW_MS) := by omega
    simp [hw]

end SecurityManager

namespace SecurityManager

theorem sign_wf {m : Json} (mac : Json → String) (t : Int) (hwf : JsonWF m) :
    JsonWF (signMessage mac t m) :=
  jinsert_wf (jinsert_wf hwf)

theorem sign_jget_hmac (mac : Json → String) (t : Int) (m : Json) :
    jget (signMessage mac t m) "hmac"
      = some (JVal.str (mac (jinsert m "timestamp" (JVal.num t)))) := by
  unfold signMessage
  rw [jget_jinsert]
  simp

theorem sign_jget_timestamp (mac : Json → String) (t : Int) (m : Json) :
    jget (signMessage mac t m) "timestamp" = some (JVal.num t) := by
  unfold signMessage
  rw [jget_jinsert]
  rw [if_neg (by decide : ¬(("timestamp" : String) = "hmac"))]
  rw [jget_jinsert]
  simp

theorem sign_jremove_hmac (mac : Json → String) (t : Int) {m : Json}
    (hwf : JsonWF m) (hm : jget m "hmac" = none) :
    jremove (signMessage mac t m) "hmac" = jinsert m "timestamp" (JVal.num t) := by
  unfold signMessage
  rw [jremove_jinsert_self (jinsert_wf hwf)]
  refine jremove_of_jget_none (jinsert_wf hwf) ?_
  rw [jget_jinsert]
  rw [if_neg (by decide : ¬(("hmac" : String) = "timestamp"))]
  exact hm

theorem sign_jgetStr_hmac (mac : Json → String) (t : Int) (m : Json) :
    jgetStr (signMessage mac t m) "hmac"
      = mac (jinsert m "timestamp" (JVal.num t)) := by
  unfold jgetStr
  rw [sign_jget_hmac]

theorem sign_jgetNum_timestamp (mac : Json → String) (t : Int) (m : Json) :
    jgetNum (signMessage mac t m) "timestamp" = t := by
  unfold jgetNum
  rw [sign_jget_timestamp]

end SecurityManager

/-- Claim C7 counterexample: the unconditional round-trip fails for a message
that already carries an `hmac` field.  Signing timestamps the message and
computes the digest while the stale `hmac` entry is still present, then
overwrites that entry; verification recomputes the digest over the signed
message with its `hmac` field removed, a different object, so by collision
resistance the digests cannot match — verification fails immediately, within
the skew window. -/
theorem C7_roundtrip_fails_on_preexisting_hmac :
    SecurityManager.verifyMessage macModel 0
      (SecurityManager.signMessage macModel 0 [("hmac", JVal.str "stale")])
      = false := by
  apply SecurityManager.verify_false_of_hash_mismatch
  have h1 : jremove
      (SecurityManager.signMessage macModel 0 [("hmac", JVal.str "stale")]) "hmac"
      = [("timestamp", JVal.num 0)] := rfl
  have h2 : jgetStr
      (SecurityManager.signMessage macModel 0 [("hmac", JVal.str "stale")]) "hmac"
      = macModel [("hmac", JVal.str "stale"), ("timestamp", JVal.num 0)] := rfl
  rw [h1, h2]
  intro h
  exact absurd (macModel_injective h) (by decide)

/-- Claim C7, amended: for a well-formed message that does not already carry
an `hmac` field, and idealising serialise-then-HMAC-SHA256 as an injective
digest function that never returns the empty string: verification of the
signed message succeeds exactly when the verifier's clock is within
±`MAX_TIME_SKEW_MS` (30,000 ms) of the signing timestamp; and any genuine
mutation of the signed message — any field inserted or replaced with a
different value (including the `hmac` and `timestamp` fields themselves), or
any field removed — makes verification return false. -/
theorem C7_amended_sign_verify_roundtrip
    (mac : Json → String) (hinj : Function.Injective mac)
    (hne : ∀ d, mac d ≠ "") (m : Json) (hwf : JsonWF m)
    (hm : jget m "hmac" = none) (tSign tVerify : Int) :
    (SecurityManager.verifyMessage mac tVerify
        (SecurityManager.signMessage mac tSign m) = true
      ↔ tVerify - tSign ≤ SecurityManager.MAX_TIME_SKEW_MS
        ∧ -SecurityManager.MAX_TIME_SKEW_MS ≤ tVerify - tSign)
    ∧ (∀ (k : String) (v : JVal),
        jinsert (SecurityManager.signMessage mac tSign m) k v
          ≠ SecurityManager.signMessage mac tSign m →
        SecurityManager.verifyMessage mac tVerify
          (jinsert (SecurityManager.signMessage mac tSign m) k v) = false)
    ∧ (∀ (k : String),
        jremove (SecurityManager.signMessage mac tSign m) k
          ≠ SecurityManager.signMessage mac tSign m →
        SecurityManager.verifyMessage mac tVerify
          (jremove (SecurityManager.signMessage mac tSign m) k) = false) := by
  have hsignwf : JsonWF (SecurityManager.signMessage mac tSign m) :=
    SecurityManager.sign_wf mac tSign hwf
  have hcont1 : jcontains (SecurityManager.signMessage mac tSign m) "hmac" = true := by
    unfold jcontains
    rw [SecurityManager.sign_jget_hmac]
    rfl
  have hcont2 : jcontains (SecurityManager.signMessage mac tSign m) "timestamp"
      = true := by
    unfold jcontains
    rw [SecurityManager.sign_jget_timestamp]
    rfl
  have hmatch : mac (jremove (SecurityManager.signMessage mac tSign m) "hmac")
      = jgetStr (SecurityManager.signMessage mac tSign m) "hmac" := by
    rw [SecurityManager.sign_jremove_hmac mac tSign hwf hm,
        SecurityManager.sign_jgetStr_hmac]
  refine ⟨?_, ?_, ?_⟩
  · rw [SecurityManager.verify_true_iff_window mac tVerify _ hcont1 hcont2 hmatch,
        SecurityManager.sign_jgetNum_timestamp]
  · intro k v hmut
    by_cases hk : k = "hmac"
    · subst hk
      apply SecurityManager.verify_false_of_hash_mismatch
      rw [jremove_jinsert_self hsignwf]
      rw [SecurityManager.sign_jremove_hmac mac tSign hwf hm]
      have hv : jget (jinsert (SecurityManager.signMessage mac tSign m) "hmac" v)
          "hmac" = some v := by
        rw [jget_jinsert]
        simp
      rcases v with s | n | b
      · have hgs : jgetStr (jinsert (SecurityManager.signMessage mac tSign m)
            "hmac" (JVal.str s)) "hmac" = s := by
          unfold jgetStr
          rw [hv]
        rw [hgs]
        intro heq
        refine hmut (jinsert_get_self hsignwf ?_)
        rw [SecurityManager.sign_jget_hmac, heq]
      · have hgs : jgetStr (jinsert (SecurityManager.signMessage mac tSign m)
            "hmac" (JVal.num n)) "hmac" = "" := by
          unfold jgetStr
          rw [hv]
        rw [hgs]
        exact hne _
      · have hgs : jgetStr (jinsert (SecurityManager.signMessage mac tSign m)
            "hmac" (JVal.bool b)) "hmac" = "" := by
          unfold jgetStr
          rw [hv]
        rw [hgs]
        exact hne _
    · apply SecurityManager.verify_false_of_hash_mismatch
      rw [jremove_jinsert_ne hsignwf hk]
      rw [SecurityManager.sign_jremove_hmac mac tSign hwf hm]
      have hgs : jgetStr (jinsert (SecurityManager.signMessage mac tSign m) k v)
          "hmac" = mac (jinsert m "timestamp" (JVal.num tSign)) := by
        unfold jgetStr
        rw [jget_jinsert, if_neg (fun hh => hk hh.symm),
            SecurityManager.sign_jget_hmac]
      rw [hgs]
      intro heq
      have heq2 := hinj heq
      have h5 : jget (jinsert (jinsert m "timestamp" (JVal.num tSign)) k v) k
          = some v := by
        rw [jget_jinsert]
        simp
      rw [heq2] at h5
      refine hmut (jinsert_get_self hsignwf ?_)
      show jget (jinsert (jinsert m "timestamp" (JVal.num tSign)) "hmac"
          (JVal.str (mac (jinsert m "timestamp" (JVal.num tSign))))) k = some v
      rw [jget_jinsert, if_neg hk]
      exact h5
  · intro k hrem
    by_cases hk1 : k = "hmac"
    · subst hk1
      apply SecurityManager.verify_false_of_missing
      left
      unfold jcontains
      rw [jget_jremove]
      simp
    · by_cases hk2 : k = "timestamp"
      · subst hk2
        apply SecurityManager.verify_false_of_missing
        right
        unfold jcontains
        rw [jget_jremove]
        simp
      · apply SecurityManager.verify_false_of_hash_mismatch
        rw [jremove_comm hsignwf]
        rw [SecurityManager.sign_jremove_hmac mac tSign hwf hm]
        have hgs : jgetStr (jremove (SecurityManager.signMessage mac tSign m) k)
            "hmac" = mac (jinsert m "timestamp" (JVal.num tSign)) := by
          unfold jgetStr
          rw [jget_jremove, if_neg (fun hh => hk1 hh.symm),
              SecurityManager.sign_jget_hmac]
        rw [hgs]
        intro heq
        have heq2 := hinj heq
        have hnone : jget (jinsert m "timestamp" (JVal.num tSign)) k = none := by
          rw [← heq2, jget_jremove]
          simp
        refine hrem (jremove_of_jget_none hsignwf ?_)
        show jget (jinsert (jinsert m "timestamp" (JVal.num tSign)) "hmac"
            (JVal.str (mac (jinsert m "timestamp" (JVal.num tSign))))) k = none
        rw [jget_jinsert, if_neg hk1]
        exact hnone

theorem C7_amended_witness :
    (SecurityManager.verifyMessage macModel 0
        (SecurityManager.signMessage macModel 0 jempty) = true
      ↔ (0 : Int) - 0 ≤ SecurityManager.MAX_TIME_SKEW_MS
        ∧ -SecurityManager.MAX_TIME_SKEW_MS ≤ (0 : Int) - 0)
    ∧ SecurityManager.verifyMessage macModel 0
        (jinsert (SecurityManager.signMessage macModel 0 jempty) "action"
          (JVal.str "x")) = false
    ∧ SecurityManager.verifyMessage macModel 0
        (jremove (SecurityManager.signMessage macModel 0 jempty) "hmac")
        = false := by
  refine ⟨?_, ?_, ?_⟩
  · exact (C7_amended_sign_verify_roundtrip macModel macModel_injective
      macModel_ne_empty jempty List.Pairwise.nil rfl 0 0).1
  · exact (C7_amended_sign_verify_roundtrip macModel macModel_injective
      macModel_ne_empty jempty List.Pairwise.nil rfl 0 0).2.1 "action"
      (JVal.str "x") (by decide)
  · exact (C7_amended_sign_verify_roundtrip macModel macModel_injective
      macModel_ne_empty jempty List.Pairwise.nil rfl 0 0).2.2 "hmac"
      (by decide)

theorem jgetStr_congr {o1 o2 : Json} (k : String) (h : jget o1 k = jget o2 k) :
    jgetStr o1 k = jgetStr o2 k := by
  unfold jgetStr
  rw [h]

theorem jcontains_congr {o1 o2 : Json} (k : String) (h : jget o1 k = jget o2 k) :
    jcontains o1 k = jcontains o2 k := by
  unfold jcontains
  rw [h]

namespace MessageValidator

theorem validateString_congr {o1 o2 : Json} (k : String) (r : Bool) (len : Nat)
    (h : jget o1 k = jget o2 k) :
    validateString o1 k r len = validateString o2 k r len := by
  unfold validateString
  rw [h]

theorem validateMessageType_congr {o1 o2 : Json}
    (h : jget o1 "type" = jget o2 "type") :
    validateMessageType o1 = validateMessageType o2 := by
  unfold validateMessageType
  rw [h]

theorem validateCheckAuthorization_congr {o1 o2 : Json}
    (ha : jget o1 "action_id" = jget o2 "action_id")
    (hd : jget o1 "details" = jget o2 "details") :
    validateCheckAuthorization o1 = validateCheckAuthorization o2 := by
  unfold validateCheckAuthorization
  rw [validateString_congr "action_id" true MAX_ACTION_ID_LENGTH ha,
      jcontains_congr "details" hd,
      validateString_congr "details" false MAX_STRING_LENGTH hd,
      jgetStr_congr "action_id" ha]

theorem validateSubmitAuthentication_congr {o1 o2 : Json}
    (hc : jget o1 "cookie" = jget o2 "cookie")
    (hr : jget o1 "response" = jget o2 "response") :
    validateSubmitAuthentication o1 = validateSubmitAuthentication o2 := by
  unfold validateSubmitAuthentication
  rw [validateString_congr "cookie" true MAX_COOKIE_LENGTH hc,
      validateString_congr "response" true MAX_RESPONSE_LENGTH hr,
      jgetStr_congr "cookie" hc]

end MessageValidator

/-- Claim C8, amended: (1) for every message whose `type` field is anything
other than `cancel_authorization`, adding the signed-delivery fields
`timestamp` and `hmac` does not change the validator's verdict — so signed
`check_authorization` and `submit_authentication` messages pass schema
validation whenever their unsigned forms do; for `cancel_authorization` the
strict allow-list rejects the extra fields (see the counterexample).  (2) The
inbound pipeline runs schema validation before HMAC verification: when
validation fails, `handleClientMessage` does not depend on the HMAC function
at all. -/
theorem C8_amended_signed_fields_validation :
    (∀ (m : Json) (ts : Int) (h : String),
      jgetStr m "type" ≠ "cancel_authorization" →
      MessageValidator.validateMessage
          (jinsert (jinsert m "timestamp" (JVal.num ts)) "hmac" (JVal.str h))
        = MessageValidator.validateMessage m)
    ∧ (∀ (mac1 mac2 : Json → String) (maxM : Nat) (st : IPCServer.State)
        (msg : Json) (now : Int),
      (MessageValidator.validateMessage msg).valid = false →
      IPCServer.handleClientMessage mac1 maxM st msg now
        = IPCServer.handleClientMessage mac2 maxM st msg now) := by
  constructor
  · intro m ts h hnc
    have hget : ∀ k, ¬(k = "timestamp") → ¬(k = "hmac") →
        jget (jinsert (jinsert m "timestamp" (JVal.num ts)) "hmac" (JVal.str h)) k
          = jget m k := by
      intro k h1 h2
      rw [jget_jinsert, if_neg h2, jget_jinsert, if_neg h1]
    have hty := hget "type" (by decide) (by decide)
    simp only [MessageValidator.validateMessage]
    rw [MessageValidator.validateMessageType_congr hty,
        jgetStr_congr "type" hty,
        MessageValidator.validateCheckAuthorization_congr
          (hget "action_id" (by decide) (by decide))
          (hget "details" (by decide) (by decide)),
        MessageValidator.validateSubmitAuthentication_congr
          (hget "cookie" (by decide) (by decide))
          (hget "response" (by decide) (by decide))]
    simp only [if_neg hnc]
  · intro mac1 mac2 maxM st msg now hval
    simp only [IPCServer.handleClientMessage]
    split
    · rfl
    · split
      · rfl
      · simp only [hval, Bool.not_false, if_true]

/-- `{"action_id":"org.example.test","type":"check_authorization"}`. -/
def checkMsgC8 : Json :=
  jinsert (jinsert jempty "type" (JVal.str "check_authorization")) "action_id"
    (JVal.str "org.example.test")

theorem C8_amended_witness :
    MessageValidator.validateMessage
        (jinsert (jinsert checkMsgC8 "timestamp" (JVal.num 1000)) "hmac"
          (JVal.str "deadbeef"))
      = MessageValidator.validateMessage checkMsgC8
    ∧ IPCServer.handleClientMessage macModel 100 hbServer hbMsg 50000
        = IPCServer.handleClientMessage (fun _ => "x") 100 hbServer hbMsg
            50000 := by
  constructor
  · exact C8_amended_signed_fields_validation.1 checkMsgC8 1000 "deadbeef"
      (by decide)
  · exact C8_amended_signed_fields_validation.2 macModel (fun _ => "x") 100
      hbServer hbMsg 50000 (by decide)

/-- `{"type":"state_update"}` — a queueable outbound message. -/
def stateUpdMsg : Json := jinsert jempty "type" (JVal.str "state_update")

/-- An IPC server whose outbound queue is exactly at capacity. -/
def fullQueueState : IPCServer.State :=
  { pendingMessages := List.replicate 50 stateUpdMsg }

theorem C9_witness :
    (IPCServer.queueMessage {} stateUpdMsg).pendingMessages.length
        ≤ IPCServer.MAX_QUEUED_MESSAGES
    ∧ (IPCServer.queueMessage fullQueueState stateUpdMsg).pendingMessages
        = fullQueueState.pendingMessages.tail ++ [stateUpdMsg]
    ∧ IPCServer.queueMessage {} (jinsert jempty "type" (JVal.str "error"))
        = {} := by
  refine ⟨?_, ?_, ?_⟩
  · exact C9_outbound_queue_bounded_fifo.1 {} stateUpdMsg (by decide)
  · exact C9_outbound_queue_bounded_fifo.2.1 fullQueueState stateUpdMsg
      (by decide) (by decide) (by decide) (by decide)
  · exact C9_outbound_queue_bounded_fifo.2.2 {}
      (jinsert jempty "type" (JVal.str "error")) (Or.inr (Or.inl (by decide)))
